import Mathlib

/-!
Verification of the RadiologyTrustLayer audit core.

This file gives a shallow embedding, in Lean 4, of the parts of the
repository that the specification makes claims about:

* `core/util/validation.py` — JSON extraction from model output
  (`extract_json_from_text`), including the two regex fallbacks;
* `core/scoring/score.py` — the penalty-based safety score
  (`compute_score`), with the Python float division modelled exactly
  as IEEE-754 double rounding over the rationals;
* `core/pipeline/medgemma_client.py` — the bounded-retry structured
  inference client (`infer_structured`), its mock mode and fallbacks;
* `core/pipeline/audit_pipeline.py` — the six-stage orchestrator
  (`run_audit`), modelled over an abstract structured-inference oracle;
* `spaces_app/ui/render_report.py` — the span-merging highlighter.

Python `str` values are modelled as `List Char` (or Lean `String`, which
wraps one); Python dicts appearing as JSON values are modelled as ordered
association lists, matching insertion order.  JSON numbers are modelled
exactly as decimal literals `mant × 10^(-frac)`, which covers every
numeric literal the repository produces or consumes (no exponent
notation, which `json.dumps` only emits for extreme magnitudes that do
not occur here).
-/

namespace RTL

/-- A JSON value.  `num mant frac` denotes the decimal `mant / 10^frac`;
integer literals have `frac = 0`.  Objects are ordered key/value lists,
as Python dicts are. -/
inductive Json where
  | null
  | bool (b : Bool)
  | num (mant : Int) (frac : Nat)
  | str (s : String)
  | arr (items : List Json)
  | obj (pairs : List (String × Json))

/-- Decimal digit character for `d < 10` (defaulting to `0` out of range). -/
def decChar (d : Nat) : Char :=
  match d with
  | 0 => '0' | 1 => '1' | 2 => '2' | 3 => '3' | 4 => '4'
  | 5 => '5' | 6 => '6' | 7 => '7' | 8 => '8' | _ => '9'

/-- Big-endian decimal digits of `n`, with explicit fuel so that the
definition is structural (and hence kernel-computable). -/
def decDigitsAux : Nat → Nat → List Nat
  | 0, _ => []
  | fuel + 1, n => if n < 10 then [n] else decDigitsAux fuel (n / 10) ++ [n % 10]

/-- Big-endian decimal digits of `n` (`[0]` for zero). -/
def decDigits (n : Nat) : List Nat := decDigitsAux (n + 1) n

/-- Decimal representation of a natural number, as characters. -/
def decChars (n : Nat) : List Char := (decDigits n).map decChar

/-- Zero-padded decimal representation of `f`, `w` characters wide
(used for the fractional part of a decimal literal). -/
def padDecChars (w f : Nat) : List Char :=
  List.replicate (w - (decDigits f).length) '0' ++ decChars f

/-- Serialization of the decimal `mant / 10^frac`, as `json.dumps` prints
the corresponding Python literal: optional sign, integer part, and for
`frac ≠ 0` a point followed by exactly `frac` fractional digits. -/
def numChars (mant : Int) (frac : Nat) : List Char :=
  let a := mant.natAbs
  let sign : List Char := if mant < 0 then ['-'] else []
  if frac = 0 then sign ++ decChars a
  else sign ++ decChars (a / 10 ^ frac) ++ '.' :: padDecChars frac (a % 10 ^ frac)

/-- Escape one character as Python `json.dumps` does for the characters
the repository produces (backslash, quote, and the common control
characters; other characters are emitted literally). -/
def escChar (c : Char) : List Char :=
  if c = '\\' then ['\\', '\\']
  else if c = '"' then ['\\', '"']
  else if c = '\n' then ['\\', 'n']
  else if c = '\t' then ['\\', 't']
  else if c = '\r' then ['\\', 'r']
  else [c]

/-- Escape a whole string body. -/
def escStr (s : String) : List Char := s.data.flatMap escChar

mutual

/-- Serialization of a JSON value, mirroring `json.dumps` with its default
separators `", "` and `": "`. -/
def jdump : Json → List Char
  | .num m e => numChars m e
  | .str s => '"' :: (escStr s ++ ['"'])
  | .bool false => ['f', 'a', 'l', 's', 'e']
  | .bool true => ['t', 'r', 'u', 'e']
  | .null => ['n', 'u', 'l', 'l']
  | .arr xs => '[' :: (jdumpItems xs ++ [']'])
  | .obj ps => '{' :: (jdumpPairs ps ++ ['}'])

/-- Array items, comma-space separated. -/
def jdumpItems : List Json → List Char
  | [] => []
  | [x] => jdump x
  | x :: y :: xs => jdump x ++ ',' :: ' ' :: jdumpItems (y :: xs)

/-- Object members, `"key": value`, comma-space separated. -/
def jdumpPairs : List (String × Json) → List Char
  | [] => []
  | [(k, v)] => '"' :: (escStr k ++ '"' :: ':' :: ' ' :: jdump v)
  | (k, v) :: p :: ps =>
      '"' :: (escStr k ++ '"' :: ':' :: ' ' :: jdump v)
        ++ ',' :: ' ' :: jdumpPairs (p :: ps)

end

/-- JSON whitespace. -/
def isBlank (c : Char) : Bool := c = ' ' || c = '\t' || c = '\n' || c = '\r'

/-- Drop leading JSON whitespace. -/
def blankDrop : List Char → List Char
  | c :: cs => if isBlank c then blankDrop cs else c :: cs
  | [] => []

/-- Numeric value of a decimal digit character, if it is one. -/
def digitOf (c : Char) : Option Nat :=
  if '0' ≤ c ∧ c ≤ '9' then some (c.toNat - 48) else none

/-- Munch a run of decimal digits, extending accumulator `acc` and digit
count `cnt`. -/
def grabDigits (acc cnt : Nat) : List Char → Nat × Nat × List Char
  | c :: rest =>
      match digitOf c with
      | some d => grabDigits (acc * 10 + d) (cnt + 1) rest
      | none => (acc, cnt, c :: rest)
  | [] => (acc, cnt, [])

/-- Resolve a JSON string escape (the repertoire `json.dumps` emits for
this repository, plus the remaining single-character escapes `json.loads`
accepts; `\uXXXX` is not modelled as the serializer never produces it). -/
def unesc (c : Char) : Option Char :=
  if c = '"' then some '"'
  else if c = '\\' then some '\\'
  else if c = '/' then some '/'
  else if c = 'n' then some '\n'
  else if c = 't' then some '\t'
  else if c = 'r' then some '\r'
  else if c = 'b' then some (Char.ofNat 8)
  else if c = 'f' then some (Char.ofNat 12)
  else none

/-- Parse a string body after the opening quote; yields the unescaped
content and the input after the closing quote. -/
def strBody : List Char → Option (List Char × List Char)
  | '"' :: rest => some ([], rest)
  | '\\' :: e :: rest =>
      match unesc e with
      | some u => (strBody rest).map (fun p => (u :: p.1, p.2))
      | none => none
  | ['\\'] => none
  | c :: rest => (strBody rest).map (fun p => (c :: p.1, p.2))
  | [] => none

/-- Parse the digits of a number after its first digit `d0`, together with
an optional fractional part.  Returns mantissa (unsigned), fractional
width, and the remaining input.  Exponent notation is not modelled (the
serializer never emits it for the values in this repository). -/
def numTail (d0 : Nat) (cs : List Char) : Option (Nat × Nat × List Char) :=
  match grabDigits d0 0 cs with
  | (i, _, r) =>
    match r with
    | '.' :: r2 =>
        match r2 with
        | c :: r3 =>
            match digitOf c with
            | some d =>
                match grabDigits d 1 r3 with
                | (f, k, r4) => some (i * 10 ^ k + f, k, r4)
            | none => none
        | [] => none
    | _ => some (i, 0, r)

mutual

/-- Parse one JSON value (fuel-structural; `json_loads` supplies ample
fuel).  Mirrors the `json.loads` grammar on the subset the repository
exercises. -/
def jparse : Nat → List Char → Option (Json × List Char)
  | 0, _ => none
  | fuel + 1, cs =>
    match blankDrop cs with
    | 'n' :: 'u' :: 'l' :: 'l' :: r => some (.null, r)
    | 't' :: 'r' :: 'u' :: 'e' :: r => some (.bool true, r)
    | 'f' :: 'a' :: 'l' :: 's' :: 'e' :: r => some (.bool false, r)
    | '"' :: r => (strBody r).map (fun p => (.str (String.mk p.1), p.2))
    | '[' :: r =>
        (match blankDrop r with
         | ']' :: r2 => some (.arr [], r2)
         | r2 =>
             match jitems fuel r2 with
             | some (xs, r3) => some (.arr xs, r3)
             | none => none)
    | '{' :: r =>
        (match blankDrop r with
         | '}' :: r2 => some (.obj [], r2)
         | r2 =>
             match jpairs fuel r2 with
             | some (ps, r3) => some (.obj ps, r3)
             | none => none)
    | '-' :: r =>
        (match r with
         | c :: r2 =>
             (match digitOf c with
              | some d =>
                  (numTail d r2).map (fun p => (.num (-(p.1 : Int)) p.2.1, p.2.2))
              | none => none)
         | [] => none)
    | c :: r =>
        (match digitOf c with
         | some d => (numTail d r).map (fun p => (.num (p.1 : Int) p.2.1, p.2.2))
         | none => none)
    | [] => none

/-- Parse one-or-more comma-separated array items up to `]`. -/
def jitems : Nat → List Char → Option (List Json × List Char)
  | 0, _ => none
  | fuel + 1, cs =>
    match jparse fuel cs with
    | some (v, r) =>
        (match blankDrop r with
         | ',' :: r2 =>
             (match jitems fuel r2 with
              | some (xs, r3) => some (v :: xs, r3)
              | none => none)
         | ']' :: r2 => some ([v], r2)
         | _ => none)
    | none => none

/-- Parse one-or-more comma-separated object members up to `}`. -/
def jpairs : Nat → List Char → Option (List (String × Json) × List Char)
  | 0, _ => none
  | fuel + 1, cs =>
    match blankDrop cs with
    | '"' :: r =>
        (match strBody r with
         | some (k, r1) =>
             (match blankDrop r1 with
              | ':' :: r2 =>
                  (match jparse fuel r2 with
                   | some (v, r3) =>
                       (match blankDrop r3 with
                        | ',' :: r4 =>
                            (match jpairs fuel r4 with
                             | some (ps, r5) => some ((String.mk k, v) :: ps, r5)
                             | none => none)
                        | '}' :: r4 => some ([(String.mk k, v)], r4)
                        | _ => none)
                   | none => none)
              | _ => none)
         | none => none)
    | _ => none

end

/-- Model of Python `json.loads`: parse a complete document, requiring
only whitespace after the value. -/
def json_loads (cs : List Char) : Option Json :=
  match jparse (cs.length + 1) cs with
  | some (v, r) => if blankDrop r = [] then some v else none
  | none => none

/-- The backtick character. -/
def tickChar : Char := Char.ofNat 96

/-- Three consecutive backticks, the fence delimiter. -/
def fenceTicks : List Char := [tickChar, tickChar, tickChar]

/-- Whether the input contains three consecutive backticks anywhere. -/
def hasTriple : List Char → Bool
  | c1 :: c2 :: c3 :: rest =>
      if c1 = tickChar && c2 = tickChar && c3 = tickChar then true
      else hasTriple (c2 :: c3 :: rest)
  | _ => false

/-- Whether, after optional whitespace, the input starts with a closing
fence.  This is the regex tail `\s*` + three backticks: `\s*` is greedy,
but since a backtick is not whitespace no backtracking can ever apply, so
maximal-munch followed by a literal check is exact. -/
def fenceClose (cs : List Char) : Bool := fenceTicks.isPrefixOf (blankDrop cs)

/-- The lazy group body `\{.*?\}` followed by `\s*` and a closing fence,
with `re.DOTALL` semantics: scan forward (shortest first, as the lazy
quantifier does) for the first `}` whose tail matches the rest of the
pattern; `acc` accumulates the group interior in reverse. -/
def lazyGroup (acc : List Char) : List Char → Option (List Char)
  | [] => none
  | c :: rest =>
      if c = '}' then
        if fenceClose rest then some ('{' :: (acc.reverse ++ ['}']))
        else lazyGroup (c :: acc) rest
      else lazyGroup (c :: acc) rest

/-- After the optional `json` tag: greedy `\s*`, a literal `{`, then the
lazy group (again, `\s*` before `{` cannot backtrack since `{` is not
whitespace). -/
def fenceBody (cs : List Char) : Option (List Char) :=
  match blankDrop cs with
  | c :: rest => if c = '{' then lazyGroup [] rest else none
  | [] => none

/-- One anchored attempt of the fenced-block pattern at the head of the
input: a literal fence, then `(?:json)?` (the regex engine prefers
consuming `json` and backtracks to the empty alternative on failure),
then the body. -/
def fenceAt (cs : List Char) : Option (List Char) :=
  if fenceTicks.isPrefixOf cs then
    let after := cs.drop 3
    if ['j', 's', 'o', 'n'].isPrefixOf after then
      match fenceBody (after.drop 4) with
      | some g => some g
      | none => fenceBody after
    else fenceBody after
  else none

/-- Model of `re.search` for the fenced-block pattern of
`extract_json_from_text`: try each start position left to right and
return the first anchored match (Python `re.search` returns the match
with the leftmost starting position). -/
def fencedSearch : List Char → Option (List Char)
  | [] => none
  | c :: rest =>
      match fenceAt (c :: rest) with
      | some g => some g
      | none => fencedSearch rest

/-- The suffix of the input starting at its first `{`, if any. -/
def braceSuffix : List Char → Option (List Char)
  | [] => none
  | c :: rest => if c = '{' then some (c :: rest) else braceSuffix rest

/-- Given a reversed tail, drop up to the first `}` (the last `}` of the
original) and return the original-order segment that ends there. -/
def lastCloseTrim (cs : List Char) : Option (List Char) :=
  match go cs.reverse with
  | some r => some r.reverse
  | none => none
where
  go : List Char → Option (List Char)
    | [] => none
    | c :: rest => if c = '}' then some (c :: rest) else go rest

/-- Model of `re.search(r"\{.*\}", text, re.DOTALL)`: the pattern matches
iff some `{` is strictly followed by some `}`; the leftmost such match
starts at the first `{` of the whole text (if the first `{` had no later
`}` then no later `{` would either), and the greedy `.*` extends the
match to the last `}` of the text. -/
def braceGroup (cs : List Char) : Option (List Char) :=
  match braceSuffix cs with
  | some (c :: tail) =>
      match lastCloseTrim tail with
      | some g => some (c :: g)
      | none => none
  | _ => none

/-- The third extraction attempt: parse the first brace-delimited
substring. -/
def braceFallback (cs : List Char) : Option Json :=
  match braceGroup cs with
  | some g => json_loads g
  | none => none

/-- Model of `extract_json_from_text` (`core/util/validation.py`): try a
direct parse of the whole text, then a ```json fenced block, then the
first `{...}` block, returning the first successful parse (each
`json.loads` failure is caught and falls through). -/
def extract_json_from_text (cs : List Char) : Option Json :=
  match json_loads cs with
  | some v => some v
  | none =>
      match fencedSearch cs with
      | some g =>
          match json_loads g with
          | some v => some v
          | none => braceFallback cs
      | none => braceFallback cs

/-! ## Exact model of the Python float arithmetic in `compute_score`

`score.py` computes `int((total_penalty / max_possible) * 100)`: a
correctly rounded IEEE-754 double division, a correctly rounded double
product, and a truncation.  We model a double as the rational it denotes
and rounding as round-to-nearest, ties-to-even, at 53 significant bits.
The model has unbounded exponent range (no subnormals or overflow),
which coincides with IEEE-754 binary64 for every magnitude reachable
here short of astronomically long alignment lists. -/

/-- Round the fraction `p / q` (`q > 0`) to the nearest natural, ties to
even.  Pure `Nat` arithmetic, so the kernel can evaluate it. -/
def rne (p q : Nat) : Nat :=
  let d := p / q
  let r := p % q
  if 2 * r < q then d
  else if q < 2 * r then d + 1
  else if d % 2 = 0 then d else d + 1

/-- Binary exponent search, upward: for `b ≤ a` count how often the
denominator can double while staying within `a/b ≥ 1`.  Fuel-structural
(the result plus one never exceeds `a`, so fuel `a` suffices). -/
def ratLog2Up : Nat → Nat → Nat → Nat
  | 0, _, _ => 0
  | fuel + 1, a, b => if a < 2 * b then 0 else ratLog2Up fuel a (2 * b) + 1

/-- Binary exponent search, downward: for `a < b` count the doublings of
the numerator needed to reach `a/b ≥ 1`. -/
def ratLog2Dn : Nat → Nat → Nat → Nat
  | 0, _, _ => 0
  | fuel + 1, a, b => if b ≤ a then 0 else ratLog2Dn fuel (2 * a) b + 1

/-- The binary exponent of the positive fraction `a / b`: the unique `e`
with `2^e ≤ a/b < 2^(e+1)`. -/
def ratLog2 (a b : Nat) : ℤ :=
  if b ≤ a then (ratLog2Up a a b : ℤ) else -(ratLog2Dn b a b : ℤ)

/-- Round the positive fraction `a / b` to the nearest IEEE-754 binary64
value, returned as `(n, s)` with value `n / 2^s`: 53 significant bits,
round to nearest, ties to even.  Everything is `Nat`/`Int` arithmetic so
concrete instances evaluate in the kernel. -/
def flFrac (a b : Nat) : Nat × ℤ :=
  let s : ℤ := 52 - ratLog2 a b
  (rne (a * 2 ^ s.toNat) (b * 2 ^ (-s).toNat), s)

/-- The rational value denoted by a rounded fraction (proof-side only). -/
def flVal (a b : Nat) : ℚ := ((flFrac a b).1 : ℚ) / 2 ^ (flFrac a b).2

/-- Model of the Python expression `int((t / m) * 100)` for naturals
`t`, `m`: a correctly rounded double division, a correctly rounded
double product, and truncation (floor, as the value is nonnegative).
`m = 0` would raise in Python; `compute_score` never divides by zero, so
that branch is arbitrary. -/
def pyTruncDiv100 (t m : Nat) : ℤ :=
  if m = 0 then 0
  else if t = 0 then 0
  else
    let f1 := flFrac t m
    let f2 := flFrac (f1.1 * 100 * 2 ^ (-f1.2).toNat) (2 ^ f1.2.toNat)
    if 0 ≤ f2.2 then (f2.1 / 2 ^ f2.2.toNat : Nat) else (f2.1 * 2 ^ (-f2.2).toNat : Nat)

/-! ## The scorer (`core/scoring/score.py`) -/

/-- Lookup in a JSON object, as Python `dict.get(key)`: `none` on a
missing key (and on a non-object, where the source would raise — a path
no claim exercises).  Later pairs shadow earlier ones, as in a Python
dict. -/
def jlookup (j : Json) (k : String) : Option Json :=
  match j with
  | .obj ps => (ps.reverse.find? (fun p => p.1 = k)).map (·.2)
  | _ => none

/-- Python `dict.get(key, default)`. -/
def dictGet (j : Json) (k : String) (dflt : Json) : Json := (jlookup j k).getD dflt

/-- The fixed penalty table `PENALTY` of `score.py` (insertion order
preserved; note there is no `not_assessable` key). -/
def PENALTY : List (String × Nat) :=
  [("supported", 0), ("uncertain", 8), ("needs_review", 25)]

/-- Lookup of a penalty weight by label. -/
def penaltyLookup (s : String) : Option Nat :=
  (PENALTY.find? (fun p => p.1 = s)).map (·.2)

/-- The effective label of one alignment dict, as the `compute_score`
loop determines it: `claim.get("label", "uncertain")`, coerced to
`"uncertain"` whenever the value is not one of the `PENALTY` keys
(which also covers any non-string label value). -/
def effLabel (claim : Json) : String :=
  match jlookup claim "label" with
  | some (Json.str s) => if (penaltyLookup s).isSome then s else "uncertain"
  | some _ => "uncertain"
  | none => "uncertain"

/-- Increment the histogram entry for `lbl` (present by construction,
since effective labels are always `PENALTY` keys). -/
def bumpCount : List (String × Nat) → String → List (String × Nat)
  | [], _ => []
  | (k, n) :: rest, lbl =>
      if k = lbl then (k, n + 1) :: rest else (k, n) :: bumpCount rest lbl

/-- The zero histogram over the `PENALTY` keys, in insertion order. -/
def zeroCounts : List (String × Nat) :=
  [("supported", 0), ("uncertain", 0), ("needs_review", 0)]

/-- The `for claim in claims` loop of `compute_score`: thread histogram
and running penalty total over the list. -/
def scoreLoop : List Json → List (String × Nat) → Nat → List (String × Nat) × Nat
  | [], counts, total => (counts, total)
  | c :: cs, counts, total =>
      let lbl := effLabel c
      scoreLoop cs (bumpCount counts lbl) (total + (penaltyLookup lbl).getD 0)

/-- The total penalty `compute_score` accumulates over an alignment
list. -/
def totalPenalty (claims : List Json) : Nat := (scoreLoop claims zeroCounts 0).2

/-- Model of `compute_score` (`core/scoring/score.py`): returns
`(overall_score, severity, flag_counts)`.  The empty input is
short-circuited; otherwise the score is
`max(0, 100 - int((total_penalty / max_possible) * 100))` computed in
Python float arithmetic, and the severity thresholds are 80 and 50. -/
def compute_score (claims : List Json) : ℤ × String × List (String × Nat) :=
  if claims.isEmpty then (100, "low", zeroCounts)
  else
    let loopOut := scoreLoop claims zeroCounts 0
    let maxPossible := 25 * claims.length
    let rawScore : ℤ :=
      if maxPossible = 0 then 100
      else max 0 (100 - pyTruncDiv100 loopOut.2 maxPossible)
    let severity :=
      if rawScore ≥ 80 then "low" else if rawScore ≥ 50 then "medium" else "high"
    (rawScore, severity, loopOut.1)

/-! ## Structural equality of JSON values (Python `==` on parsed values) -/

mutual

/-- Boolean structural equality of JSON values. -/
def jeqb : Json → Json → Bool
  | .null, .null => true
  | .bool a, .bool b => a == b
  | .num m e, .num m2 e2 => m == m2 && e == e2
  | .str s, .str t => s == t
  | .arr xs, .arr ys => jeqbItems xs ys
  | .obj ps, .obj qs => jeqbPairs ps qs
  | _, _ => false

/-- Elementwise equality of JSON lists. -/
def jeqbItems : List Json → List Json → Bool
  | [], [] => true
  | x :: xs, y :: ys => jeqb x y && jeqbItems xs ys
  | _, _ => false

/-- Pairwise equality of JSON object member lists. -/
def jeqbPairs : List (String × Json) → List (String × Json) → Bool
  | [], [] => true
  | (k, v) :: ps, (k2, v2) :: qs => k == k2 && jeqb v v2 && jeqbPairs ps qs
  | _, _ => false

end

/-! ## The structured-inference client (`core/pipeline/medgemma_client.py`)

The generation capability itself (`_raw_infer`, local or API, text or
multimodal) is an external collaborator: it is abstracted as a function
from the attempt number and the prompt actually sent to either raw text
or a raised exception message.  Schema loading and `jsonschema`
validation are likewise external and abstracted as a
`validate : Json → List String` argument (empty output means valid).
The one-second inter-attempt sleep is timing, not modelled. -/

/-- Outcome of one generation call: raw text, or a raised exception. -/
inductive GenResult where
  | txt (s : String)
  | exnMsg (e : String)

/-- What `infer_structured` returns, plus the prompts it actually sent to
the generation collaborator, in order (so call count and retry-hint
content are observable). -/
structure InferOut where
  result : Json
  errors : List String
  promptsUsed : List String

/-- The fixed retry bound of `medgemma_client.py`. -/
def MAX_RETRIES : Nat := 3

/-- An apostrophe, as a string. -/
def apos : String := (Char.ofNat 39).toString

/-- Python `repr` of a list of strings, as interpolated by the retry-hint
f-string (for strings without quotes or escapes, the only ones the
pipeline produces). -/
def pyReprStrList (errs : List String) : String :=
  "[" ++ String.intercalate ", " (errs.map (fun e => apos ++ e ++ apos)) ++ "]"

/-- The correction hint appended to the prompt on every retry, listing
the prior errors. -/
def retryHint (lastError : List String) : String :=
  "\n\nIMPORTANT: Your previous response was not valid JSON. Errors: "
    ++ pyReprStrList lastError
    ++ ". You MUST respond with ONLY a valid JSON object."

/-- The parse-failure message, quoting at most 200 characters of the raw
response. -/
def noJsonMsg (raw : String) : String :=
  "No JSON found in response. Got: " ++ String.mk (raw.data.take 200)

/-- Model of `_fallback_result`: the minimal schema-conformant value
returned for a task once all attempts are exhausted. -/
def fallback_result (task : String) : Json :=
  if task = "claim_extraction" then .obj [("claims", .arr [])]
  else if task = "image_findings" then
    .obj [("findings", .arr []), ("image_quality", .str "poor"),
          ("overall_impression", .str "Analysis failed.")]
  else if task = "alignment" then .obj [("alignments", .arr [])]
  else if task = "rewrite" then .obj [("rewrites", .arr []), ("edited_report", .str "")]
  else if task = "clinician_summary" then
    .obj [("summary", .str "Audit could not be completed."), ("key_concerns", .arr []),
          ("recommendation", .str "review_recommended"),
          ("confidence_note", .str "Inference failed.")]
  else if task = "patient_explain" then
    .obj [("plain_language_summary", .str "Unable to generate explanation.")]
  else .obj []

/-- Substring test (Python `in` on strings). -/
def subScan (pat : List Char) : List Char → Bool
  | [] => pat.isPrefixOf []
  | c :: rest => if pat.isPrefixOf (c :: rest) then true else subScan pat rest

/-- Python `needle in haystack` for strings. -/
def strContains (haystack needle : String) : Bool := subScan needle.data haystack.data

/-- Model of `_detect_mock_case`: keyword dispatch over the lower-cased
mock context. -/
def detect_mock_case (ctx : String) : String :=
  let c := ctx.toLower
  if strContains c "cardiomegaly" || strContains c "heart failure"
      || strContains c "venous hypertension" then "chf"
  else if strContains c "pre-operative"
      || (strContains c "lungs are clear" && strContains c "normal") then "normal"
  else "pneumonia"

/-- Transcription of the `_MOCK_PNEUMONIA` fixture of `medgemma_client.py`: the
pre-generated per-task results for the pneumonia mock case. -/
def mockPneumonia : List (String × Json) := [
  ("claim_extraction",
   Json.obj [
      ("claims", Json.arr [
        Json.obj [
          ("claim_id", Json.str "c1"),
          ("text", Json.str "There is consolidation in the right lower lobe consistent with pneumonia."),
          ("sentence_span", Json.obj [
            ("start", Json.num 0 0),
            ("end", Json.num 70 0)]),
          ("claim_type", Json.str "finding")],
        Json.obj [
          ("claim_id", Json.str "c2"),
          ("text", Json.str "No pleural effusion is identified."),
          ("sentence_span", Json.obj [
            ("start", Json.num 71 0),
            ("end", Json.num 105 0)]),
          ("claim_type", Json.str "absence")],
        Json.obj [
          ("claim_id", Json.str "c3"),
          ("text", Json.str "The cardiomediastinal silhouette is within normal limits."),
          ("sentence_span", Json.obj [
            ("start", Json.num 106 0),
            ("end", Json.num 163 0)]),
          ("claim_type", Json.str "finding")],
        Json.obj [
          ("claim_id", Json.str "c4"),
          ("text", Json.str "No pneumothorax is seen."),
          ("sentence_span", Json.obj [
            ("start", Json.num 164 0),
            ("end", Json.num 187 0)]),
          ("claim_type", Json.str "absence")],
        Json.obj [
          ("claim_id", Json.str "c5"),
          ("text", Json.str "Mild hyperinflation is noted, possibly consistent with early COPD."),
          ("sentence_span", Json.obj [
            ("start", Json.num 188 0),
            ("end", Json.num 253 0)]),
          ("claim_type", Json.str "impression")]])]),
  ("image_findings",
   Json.obj [
      ("findings", Json.arr [
        Json.obj [
          ("finding_id", Json.str "f1"),
          ("description", Json.str "Increased opacity in the right lower lobe"),
          ("location", Json.str "right lower lobe"),
          ("confidence", Json.num 82 2),
          ("visual_cue", Json.str "Dense white area replacing normal lung markings")],
        Json.obj [
          ("finding_id", Json.str "f2"),
          ("description", Json.str "Clear costophrenic angles bilaterally"),
          ("location", Json.str "bilateral costophrenic angles"),
          ("confidence", Json.num 91 2),
          ("visual_cue", Json.str "Sharp, well-defined angles without blunting")],
        Json.obj [
          ("finding_id", Json.str "f3"),
          ("description", Json.str "Normal cardiac borders and mediastinal width"),
          ("location", Json.str "mediastinum"),
          ("confidence", Json.num 88 2),
          ("visual_cue", Json.str "Cardiac silhouette within normal proportions")],
        Json.obj [
          ("finding_id", Json.str "f4"),
          ("description", Json.str "No visible pneumothorax"),
          ("location", Json.str "bilateral lung apices"),
          ("confidence", Json.num 85 2),
          ("visual_cue", Json.str "Lung markings visible to periphery bilaterally")],
        Json.obj [
          ("finding_id", Json.str "f5"),
          ("description", Json.str "Slightly increased AP diameter and flattened diaphragms"),
          ("location", Json.str "bilateral diaphragms"),
          ("confidence", Json.num 61 2),
          ("visual_cue", Json.str "Diaphragms appear somewhat flattened")]]),
      ("image_quality", Json.str "adequate"),
      ("overall_impression", Json.str "PA chest radiograph with right lower lobe opacity and possible hyperinflation.")]),
  ("alignment",
   Json.obj [
      ("alignments", Json.arr [
        Json.obj [
          ("claim_id", Json.str "c1"),
          ("label", Json.str "supported"),
          ("evidence", Json.str "Right lower lobe opacity (f1) is clearly visible, consistent with consolidation."),
          ("confidence", Json.num 82 2),
          ("related_finding_ids", Json.arr [
            Json.str "f1"])],
        Json.obj [
          ("claim_id", Json.str "c2"),
          ("label", Json.str "supported"),
          ("evidence", Json.str "Bilateral costophrenic angles are clear (f2), no blunting suggesting effusion."),
          ("confidence", Json.num 91 2),
          ("related_finding_ids", Json.arr [
            Json.str "f2"])],
        Json.obj [
          ("claim_id", Json.str "c3"),
          ("label", Json.str "supported"),
          ("evidence", Json.str "Cardiac borders and mediastinal contour appear normal (f3)."),
          ("confidence", Json.num 88 2),
          ("related_finding_ids", Json.arr [
            Json.str "f3"])],
        Json.obj [
          ("claim_id", Json.str "c4"),
          ("label", Json.str "supported"),
          ("evidence", Json.str "Lung markings extend to periphery (f4), no visible pleural line."),
          ("confidence", Json.num 85 2),
          ("related_finding_ids", Json.arr [
            Json.str "f4"])],
        Json.obj [
          ("claim_id", Json.str "c5"),
          ("label", Json.str "uncertain"),
          ("evidence", Json.str "Diaphragms slightly flattened (f5), but COPD diagnosis requires clinical correlation."),
          ("confidence", Json.num 61 2),
          ("related_finding_ids", Json.arr [
            Json.str "f5"])]])]),
  ("rewrite",
   Json.obj [
      ("rewrites", Json.arr [
        Json.obj [
          ("claim_id", Json.str "c5"),
          ("original", Json.str "Mild hyperinflation is noted, possibly consistent with early COPD."),
          ("suggested", Json.str "There may be mild hyperinflation; clinical correlation is recommended to evaluate for COPD."),
          ("reason", Json.str "COPD is a clinical diagnosis; radiographic suggestion should be hedged.")]]),
      ("edited_report", Json.str "There is consolidation in the right lower lobe consistent with pneumonia. No pleural effusion is identified. The cardiomediastinal silhouette is within normal limits. No pneumothorax is seen. There may be mild hyperinflation; clinical correlation is recommended to evaluate for COPD.")]),
  ("clinician_summary",
   Json.obj [
      ("summary", Json.str "Report is largely well-supported by imaging. Four of five claims are clearly supported. One claim regarding possible COPD has been flagged for hedging."),
      ("key_concerns", Json.arr [
        Json.str "Claim c5: COPD suggestion requires clinical correlation and was rewritten for calibration."]),
      ("recommendation", Json.str "review_recommended"),
      ("confidence_note", Json.str "Audit performed using MedGemma-4B-IT. Image quality was adequate.")]),
  ("patient_explain",
   Json.obj [
      ("plain_language_summary", Json.str "Your chest X-ray shows an area of cloudiness in the lower right part of your lung, which may indicate a lung infection (pneumonia). No fluid around the lungs, no collapsed lung, and no heart enlargement were found."),
      ("what_was_found", Json.str "An area of cloudiness (consolidation) in the lower right part of your lung."),
      ("what_it_means", Json.str "This often means there is a lung infection. Your doctor will explain what this means for your treatment."),
      ("next_steps", Json.str "Please follow up with your doctor to discuss treatment and whether additional tests are needed.")])
]

/-- Transcription of the `_MOCK_CHF` fixture of `medgemma_client.py`: the
pre-generated per-task results for the CHF mock case. -/
def mockChf : List (String × Json) := [
  ("claim_extraction",
   Json.obj [
      ("claims", Json.arr [
        Json.obj [
          ("claim_id", Json.str "c1"),
          ("text", Json.str "Bilateral interstitial opacities are present, greater on the right."),
          ("sentence_span", Json.obj [
            ("start", Json.num 0 0),
            ("end", Json.num 66 0)]),
          ("claim_type", Json.str "finding")],
        Json.obj [
          ("claim_id", Json.str "c2"),
          ("text", Json.str "There is mild cardiomegaly."),
          ("sentence_span", Json.obj [
            ("start", Json.num 67 0),
            ("end", Json.num 94 0)]),
          ("claim_type", Json.str "finding")],
        Json.obj [
          ("claim_id", Json.str "c3"),
          ("text", Json.str "Bilateral pleural effusions are suspected, right greater than left."),
          ("sentence_span", Json.obj [
            ("start", Json.num 95 0),
            ("end", Json.num 162 0)]),
          ("claim_type", Json.str "finding")],
        Json.obj [
          ("claim_id", Json.str "c4"),
          ("text", Json.str "No pneumothorax is identified."),
          ("sentence_span", Json.obj [
            ("start", Json.num 163 0),
            ("end", Json.num 193 0)]),
          ("claim_type", Json.str "absence")],
        Json.obj [
          ("claim_id", Json.str "c5"),
          ("text", Json.str "The pulmonary vasculature appears engorged, consistent with pulmonary venous hypertension."),
          ("sentence_span", Json.obj [
            ("start", Json.num 194 0),
            ("end", Json.num 285 0)]),
          ("claim_type", Json.str "impression")]])]),
  ("image_findings",
   Json.obj [
      ("findings", Json.arr [
        Json.obj [
          ("finding_id", Json.str "f1"),
          ("description", Json.str "Bilateral hazy opacities, worse on right"),
          ("location", Json.str "bilateral lung fields"),
          ("confidence", Json.num 76 2),
          ("visual_cue", Json.str "Diffuse increased density in both lung fields")],
        Json.obj [
          ("finding_id", Json.str "f2"),
          ("description", Json.str "Cardiac silhouette mildly enlarged"),
          ("location", Json.str "mediastinum"),
          ("confidence", Json.num 72 2),
          ("visual_cue", Json.str "Cardiothoracic ratio approximately 0.55")],
        Json.obj [
          ("finding_id", Json.str "f3"),
          ("description", Json.str "Blunting of right costophrenic angle"),
          ("location", Json.str "right costophrenic angle"),
          ("confidence", Json.num 68 2),
          ("visual_cue", Json.str "Meniscus sign at right base")],
        Json.obj [
          ("finding_id", Json.str "f4"),
          ("description", Json.str "No pneumothorax identified"),
          ("location", Json.str "bilateral apices"),
          ("confidence", Json.num 89 2),
          ("visual_cue", Json.str "Lung markings visible to periphery")],
        Json.obj [
          ("finding_id", Json.str "f5"),
          ("description", Json.str "Upper lobe pulmonary venous distension"),
          ("location", Json.str "bilateral upper lobes"),
          ("confidence", Json.num 58 2),
          ("visual_cue", Json.str "Vessels in upper lobes appear prominent")]]),
      ("image_quality", Json.str "adequate"),
      ("overall_impression", Json.str "PA chest radiograph showing bilateral opacities, possible cardiomegaly, and right-sided pleural effusion.")]),
  ("alignment",
   Json.obj [
      ("alignments", Json.arr [
        Json.obj [
          ("claim_id", Json.str "c1"),
          ("label", Json.str "supported"),
          ("evidence", Json.str "Bilateral hazy opacities are visible (f1), right worse than left."),
          ("confidence", Json.num 76 2),
          ("related_finding_ids", Json.arr [
            Json.str "f1"])],
        Json.obj [
          ("claim_id", Json.str "c2"),
          ("label", Json.str "uncertain"),
          ("evidence", Json.str "Cardiac silhouette may be mildly enlarged (f2), but CTR is borderline at ~0.55. Definitive cardiomegaly requires CTR >0.5 on a PA film with good inspiration."),
          ("confidence", Json.num 72 2),
          ("related_finding_ids", Json.arr [
            Json.str "f2"])],
        Json.obj [
          ("claim_id", Json.str "c3"),
          ("label", Json.str "needs_review"),
          ("evidence", Json.str "Right costophrenic angle blunting (f3) could represent effusion, but only the right side shows clear evidence. Left effusion is not convincingly demonstrated."),
          ("confidence", Json.num 68 2),
          ("related_finding_ids", Json.arr [
            Json.str "f3"])],
        Json.obj [
          ("claim_id", Json.str "c4"),
          ("label", Json.str "supported"),
          ("evidence", Json.str "No evidence of pneumothorax (f4). Lung markings visible bilaterally."),
          ("confidence", Json.num 89 2),
          ("related_finding_ids", Json.arr [
            Json.str "f4"])],
        Json.obj [
          ("claim_id", Json.str "c5"),
          ("label", Json.str "needs_review"),
          ("evidence", Json.str "Upper lobe venous distension is subtle (f5). Pulmonary venous hypertension is a strong clinical claim that requires more definitive imaging evidence."),
          ("confidence", Json.num 58 2),
          ("related_finding_ids", Json.arr [
            Json.str "f5"])]])]),
  ("rewrite",
   Json.obj [
      ("rewrites", Json.arr [
        Json.obj [
          ("claim_id", Json.str "c2"),
          ("original", Json.str "There is mild cardiomegaly."),
          ("suggested", Json.str "The cardiac silhouette appears borderline enlarged; correlation with prior imaging is recommended."),
          ("reason", Json.str "CTR is borderline; definitive cardiomegaly statement is overly confident.")],
        Json.obj [
          ("claim_id", Json.str "c3"),
          ("original", Json.str "Bilateral pleural effusions are suspected, right greater than left."),
          ("suggested", Json.str "A right-sided pleural effusion is suspected based on costophrenic angle blunting. Left-sided effusion is not clearly demonstrated."),
          ("reason", Json.str "Only right costophrenic angle shows clear blunting; bilateral claim is not fully supported.")],
        Json.obj [
          ("claim_id", Json.str "c5"),
          ("original", Json.str "The pulmonary vasculature appears engorged, consistent with pulmonary venous hypertension."),
          ("suggested", Json.str "There may be upper lobe pulmonary venous prominence; clinical correlation for pulmonary venous hypertension is suggested."),
          ("reason", Json.str "Pulmonary venous hypertension is a strong claim requiring more definitive evidence.")]]),
      ("edited_report", Json.str "Bilateral interstitial opacities are present, greater on the right. The cardiac silhouette appears borderline enlarged; correlation with prior imaging is recommended. A right-sided pleural effusion is suspected based on costophrenic angle blunting. Left-sided effusion is not clearly demonstrated. No pneumothorax is identified. There may be upper lobe pulmonary venous prominence; clinical correlation for pulmonary venous hypertension is suggested.")]),
  ("clinician_summary",
   Json.obj [
      ("summary", Json.str "This report contains multiple claims that exceed the imaging evidence. Two claims were flagged as needing review and one as uncertain. The bilateral effusion and pulmonary hypertension claims are not adequately supported."),
      ("key_concerns", Json.arr [
        Json.str "Claim c3: Bilateral effusion stated but only right side shows clear evidence.",
        Json.str "Claim c5: Pulmonary venous hypertension claim exceeds subtle imaging findings.",
        Json.str "Claim c2: Cardiomegaly borderline — statement could be softened."]),
      ("recommendation", Json.str "review_recommended"),
      ("confidence_note", Json.str "Audit performed using MedGemma-4B-IT. Multiple claims need radiologist verification.")]),
  ("patient_explain",
   Json.obj [
      ("plain_language_summary", Json.str "Your chest X-ray shows some haziness in both lungs and your heart may be slightly larger than normal. There may be fluid on one side. Your doctor will review these findings to determine the best next steps."),
      ("what_was_found", Json.str "Haziness in both lungs, a borderline enlarged heart, and possible fluid on the right side of the chest."),
      ("what_it_means", Json.str "These findings can be associated with heart-related conditions. Your doctor will explain what they mean for your specific situation."),
      ("next_steps", Json.str "Follow up with your doctor. Additional testing such as an echocardiogram may be recommended.")])
]

/-- Transcription of the `_MOCK_NORMAL` fixture of `medgemma_client.py`: the
pre-generated per-task results for the normal-study mock case. -/
def mockNormal : List (String × Json) := [
  ("claim_extraction",
   Json.obj [
      ("claims", Json.arr [
        Json.obj [
          ("claim_id", Json.str "c1"),
          ("text", Json.str "The lungs are clear."),
          ("sentence_span", Json.obj [
            ("start", Json.num 0 0),
            ("end", Json.num 20 0)]),
          ("claim_type", Json.str "finding")],
        Json.obj [
          ("claim_id", Json.str "c2"),
          ("text", Json.str "No focal consolidation, pleural effusion, or pneumothorax."),
          ("sentence_span", Json.obj [
            ("start", Json.num 21 0),
            ("end", Json.num 79 0)]),
          ("claim_type", Json.str "absence")],
        Json.obj [
          ("claim_id", Json.str "c3"),
          ("text", Json.str "The cardiomediastinal silhouette is normal."),
          ("sentence_span", Json.obj [
            ("start", Json.num 80 0),
            ("end", Json.num 122 0)]),
          ("claim_type", Json.str "finding")],
        Json.obj [
          ("claim_id", Json.str "c4"),
          ("text", Json.str "Bony structures are intact."),
          ("sentence_span", Json.obj [
            ("start", Json.num 123 0),
            ("end", Json.num 150 0)]),
          ("claim_type", Json.str "finding")]])]),
  ("image_findings",
   Json.obj [
      ("findings", Json.arr [
        Json.obj [
          ("finding_id", Json.str "f1"),
          ("description", Json.str "Clear bilateral lung fields without opacities"),
          ("location", Json.str "bilateral lungs"),
          ("confidence", Json.num 95 2),
          ("visual_cue", Json.str "Both lung fields appear uniformly lucent with normal vascular markings")],
        Json.obj [
          ("finding_id", Json.str "f2"),
          ("description", Json.str "Sharp costophrenic angles bilaterally"),
          ("location", Json.str "bilateral costophrenic angles"),
          ("confidence", Json.num 94 2),
          ("visual_cue", Json.str "No blunting or meniscus sign")],
        Json.obj [
          ("finding_id", Json.str "f3"),
          ("description", Json.str "Normal cardiac silhouette"),
          ("location", Json.str "mediastinum"),
          ("confidence", Json.num 93 2),
          ("visual_cue", Json.str "CTR within normal limits, normal mediastinal contour")],
        Json.obj [
          ("finding_id", Json.str "f4"),
          ("description", Json.str "Intact bony thorax"),
          ("location", Json.str "ribs and spine"),
          ("confidence", Json.num 9 1),
          ("visual_cue", Json.str "No fractures or lytic lesions identified")]]),
      ("image_quality", Json.str "adequate"),
      ("overall_impression", Json.str "PA chest radiograph with no acute findings. Normal study.")]),
  ("alignment",
   Json.obj [
      ("alignments", Json.arr [
        Json.obj [
          ("claim_id", Json.str "c1"),
          ("label", Json.str "supported"),
          ("evidence", Json.str "Lung fields are clear and lucent (f1) with normal vascular markings."),
          ("confidence", Json.num 95 2),
          ("related_finding_ids", Json.arr [
            Json.str "f1"])],
        Json.obj [
          ("claim_id", Json.str "c2"),
          ("label", Json.str "supported"),
          ("evidence", Json.str "No consolidation visible, costophrenic angles sharp (f2), no pleural line to suggest pneumothorax."),
          ("confidence", Json.num 94 2),
          ("related_finding_ids", Json.arr [
            Json.str "f1",
            Json.str "f2"])],
        Json.obj [
          ("claim_id", Json.str "c3"),
          ("label", Json.str "supported"),
          ("evidence", Json.str "Cardiac silhouette and mediastinal contour are normal (f3)."),
          ("confidence", Json.num 93 2),
          ("related_finding_ids", Json.arr [
            Json.str "f3"])],
        Json.obj [
          ("claim_id", Json.str "c4"),
          ("label", Json.str "supported"),
          ("evidence", Json.str "No fractures or lytic lesions in visible bony structures (f4)."),
          ("confidence", Json.num 9 1),
          ("related_finding_ids", Json.arr [
            Json.str "f4"])]])]),
  ("rewrite",
   Json.obj [
      ("rewrites", Json.arr []),
      ("edited_report", Json.str "The lungs are clear. No focal consolidation, pleural effusion, or pneumothorax. The cardiomediastinal silhouette is normal. Bony structures are intact.")]),
  ("clinician_summary",
   Json.obj [
      ("summary", Json.str "All claims in the report are well-supported by imaging evidence. This is a normal chest radiograph with no concerning findings. No rewrites needed."),
      ("key_concerns", Json.arr []),
      ("recommendation", Json.str "no_action_needed"),
      ("confidence_note", Json.str "Audit performed using MedGemma-4B-IT. High confidence across all claims.")]),
  ("patient_explain",
   Json.obj [
      ("plain_language_summary", Json.str "Your chest X-ray looks normal. Your lungs are clear, your heart is a normal size, and your bones look healthy. No problems were found."),
      ("what_was_found", Json.str "Nothing abnormal. Your lungs, heart, and bones all appear normal."),
      ("what_it_means", Json.str "This is good news — your chest X-ray does not show any signs of disease or injury."),
      ("next_steps", Json.str ("No additional imaging is needed based on these results. Continue with your doctor" ++ apos ++ "s recommendations."))])
]


/-- Model of `_mock_result`: select the fixture table for the detected
case and return its entry for the task (or the `_mock` stub for an
unknown task). -/
def mock_result (task ctx : String) : Json :=
  let case := detect_mock_case ctx
  let caseData :=
    if case = "pneumonia" then mockPneumonia
    else if case = "chf" then mockChf
    else if case = "normal" then mockNormal
    else mockPneumonia
  ((caseData.find? (fun p => p.1 = task)).map (·.2)).getD
    (Json.obj [("_mock", Json.bool true), ("task", Json.str task)])

/-- The retry loop of `infer_structured`, with explicit remaining-attempt
fuel and a 1-based attempt counter.  `lastError` threads the latest error
list; `used` logs the prompt sent on each generation call.  On a raised
generation exception the error list becomes that message (the sleep
between attempts is timing only). -/
def inferLoop (validate : Json → List String) (gen : Nat → String → GenResult)
    (prompt task : String) : Nat → Nat → List String → List String → InferOut
  | 0, _, lastError, used => ⟨fallback_result task, lastError, used⟩
  | fuel + 1, attempt, lastError, used =>
      let p := if attempt > 1 then prompt ++ retryHint lastError else prompt
      match gen attempt p with
      | .exnMsg e => inferLoop validate gen prompt task fuel (attempt + 1) [e] (used ++ [p])
      | .txt raw =>
          match extract_json_from_text raw.data with
          | none =>
              inferLoop validate gen prompt task fuel (attempt + 1) [noJsonMsg raw] (used ++ [p])
          | some parsed =>
              match validate parsed with
              | [] => ⟨parsed, [], used ++ [p]⟩
              | errs => inferLoop validate gen prompt task fuel (attempt + 1) errs (used ++ [p])

/-- Model of `infer_structured`: in mock mode, return the pre-generated
mock result at once (no generation, no extraction, no validation);
otherwise run the bounded retry loop and fall back on exhaustion. -/
def infer_structured (mock : Bool) (mockCtx : String) (validate : Json → List String)
    (gen : Nat → String → GenResult) (prompt task : String) : InferOut :=
  if mock then ⟨mock_result task mockCtx, [], []⟩
  else inferLoop validate gen prompt task MAX_RETRIES 1 [] []

/-! ## The audit orchestrator (`core/pipeline/audit_pipeline.py`)

`run_audit` is modelled over an abstract structured-inference oracle
`infer` standing for `medgemma_client.infer_structured` (whatever mode it
is in), which for each stage receives the task name and the data embedded
into that stage's prompt and returns a result dict plus an error list.
Prompt templates are external text files; a prompt is therefore modelled
as the template name together with the exact values substituted into it
(`PromptData`), rather than as flattened text.  Schema files are external
data, abstracted as `schemaText`.  Run ids, timestamps, hashing, model
identity, the progress callback and the final disk write are I/O or
metadata and are not modelled; the images are folded into the oracle. -/

/-- The values `run_audit` substitutes into each stage's prompt template
(`json.dumps` rendering of embedded lists is presentation and kept
structured here). -/
inductive PromptData where
  | claimExtraction (report_text : String) (schema : String)
  | imageFindings (schema : String)
  | alignStage (claims findings : List Json) (schema : String)
  | rewriteStage (report_text : String) (flagged : List Json) (schema : String)
  | clinicianSummary (overall_score : Int) (severity : String)
      (flag_counts : List (String × Nat)) (flagged_claims : List Json) (schema : String)
  | patientExplain (report_text : Json) (schema : String)

/-- What one oracle call returns: the parsed (or fallback) result dict
and the stage error list, exactly the pair `infer_structured` yields. -/
structure StageOut where
  result : Json
  errors : List String

/-- The fields of the assembled `AuditResult` record that the model
tracks, plus `promptLog`: the `(task_name, prompt payload)` pair of every
oracle call in stage order, so that what was embedded into each prompt is
observable. -/
structure AuditResult where
  original_report : String
  claims : List Json
  findings : List Json
  image_quality : Json
  alignments : List Json
  overall_score : Int
  severity : String
  flag_counts : List (String × Nat)
  rewrites : Json
  edited_report : Json
  clinician_summary : Json
  patient_explanation : Json
  pipeline_errors : List String
  schema_repairs : List String
  promptLog : List (String × PromptData)

/-- Python `result.get(key, [])` followed by iteration: the list value of
a key, or empty.  (A present non-list value would raise on iteration in
the source; no claim exercises that path.) -/
def jgetList (j : Json) (k : String) : List Json :=
  match jlookup j k with
  | some (.arr xs) => xs
  | _ => []

/-- The dict comprehension building `claim_map` plus its lookup: find the
claim whose `claim_id` equals `cid` (later claims shadow earlier ones, as
in a dict; a claim without `claim_id` would raise in the source and is
skipped here — a path no claim exercises). -/
def claimFind (claims : List Json) (cid : Json) : Option Json :=
  claims.reverse.find? (fun c =>
    match jlookup c "claim_id" with
    | some k => jeqb k cid
    | none => false)

/-- Replace-or-append assignment on an object's member list (Python
`d[k] = v`; a non-dict would raise in the source and is returned
unchanged here — not exercised). -/
def setPairs : List (String × Json) → String → Json → List (String × Json)
  | [], k, v => [(k, v)]
  | (k0, v0) :: rest, k, v =>
      if k0 = k then (k0, v) :: rest else (k0, v0) :: setPairs rest k v

/-- Python `a["claim_text"] = value` on a JSON object. -/
def jsetField (j : Json) (k : String) (v : Json) : Json :=
  match j with
  | .obj ps => .obj (setPairs ps k v)
  | other => other

/-- The claim-text merge loop of `run_audit`: for each alignment, default
the claim id to `""`, look it up among the claims, and set `claim_text`
to the found claim's `text` (empty string when either is missing). -/
def mergeClaimText (claims : List Json) (alignments : List Json) : List Json :=
  alignments.map (fun a =>
    let cid := (jlookup a "claim_id").getD (Json.str "")
    let ctext := ((claimFind claims cid).bind (fun c => jlookup c "text")).getD (Json.str "")
    jsetField a "claim_text" ctext)

/-- The membership test `a.get("label") in (...)` of the two flagged-claim
filters: true exactly when the label value is one of the given strings
(a missing or non-string label never equals a member of the tuple). -/
def labelIs (a : Json) (names : List String) : Bool :=
  match jlookup a "label" with
  | some (.str s) => names.contains s
  | _ => false

/-- Model of `run_audit`: the six-stage pipeline, threading each stage's
output into the next prompt, merging claim text into alignments, scoring
after alignment, filtering flagged claims for the rewrite and
clinician-summary prompts, and accumulating `pipeline_errors` and
`schema_repairs` in stage order. -/
def run_audit (infer : String → PromptData → StageOut) (schemaText : String → String)
    (report_text : String) : AuditResult :=
  let ceQ := PromptData.claimExtraction report_text (schemaText "claim_extraction")
  let ce := infer "claim_extraction" ceQ
  let claims := jgetList ce.result "claims"
  let fiQ := PromptData.imageFindings (schemaText "image_findings")
  let fi := infer "image_findings" fiQ
  let findings := jgetList fi.result "findings"
  let image_quality := dictGet fi.result "image_quality" (Json.str "adequate")
  let alQ := PromptData.alignStage claims findings (schemaText "alignment")
  let al := infer "alignment" alQ
  let alignments := mergeClaimText claims (jgetList al.result "alignments")
  let sc := compute_score alignments
  let flagged := alignments.filter (fun a => labelIs a ["uncertain", "needs_review"])
  let rwQ := PromptData.rewriteStage report_text flagged (schemaText "rewrite")
  let rw := infer "rewrite" rwQ
  let flagged_claims :=
    alignments.filter (fun a => labelIs a ["uncertain", "needs_review", "not_assessable"])
  let csQ := PromptData.clinicianSummary sc.1 sc.2.1 sc.2.2 flagged_claims
    (schemaText "clinician_summary")
  let cs := infer "clinician_summary" csQ
  let edited_report := dictGet rw.result "edited_report" (Json.str report_text)
  let peQ := PromptData.patientExplain edited_report (schemaText "patient_explain")
  let pe := infer "patient_explain" peQ
  { original_report := report_text
    claims := claims
    findings := findings
    image_quality := image_quality
    alignments := alignments
    overall_score := sc.1
    severity := sc.2.1
    flag_counts := sc.2.2
    rewrites := (jlookup rw.result "rewrites").getD (Json.arr [])
    edited_report := edited_report
    clinician_summary := cs.result
    patient_explanation := pe.result
    pipeline_errors :=
      ce.errors ++ fi.errors ++ al.errors ++ rw.errors ++ cs.errors ++ pe.errors
    schema_repairs :=
      (if ce.errors.isEmpty then [] else ["claim_extraction"])
        ++ (if fi.errors.isEmpty then [] else ["image_findings"])
        ++ (if al.errors.isEmpty then [] else ["alignment"])
        ++ (if rw.errors.isEmpty then [] else ["rewrite"])
        ++ (if cs.errors.isEmpty then [] else ["clinician_summary"])
        ++ (if pe.errors.isEmpty then [] else ["patient_explain"])
    promptLog :=
      [("claim_extraction", ceQ), ("image_findings", fiQ), ("alignment", alQ),
       ("rewrite", rwQ), ("clinician_summary", csQ), ("patient_explain", peQ)] }

/-! ## The span-merging highlighter (`spaces_app/ui/render_report.py`)

`render_highlighted_report` emits HTML; the HTML wrapper, escaping,
legend, styles and tooltips are presentation.  What the model captures is
the sequence of emitted text segments — each either untagged report text
or a claim span tagged with its label and claim id — with each segment's
source slice of the report. -/

/-- One emitted segment: its source slice of the report, and for a claim
span the `(label, claim_id)` pair it is tagged with. -/
structure Segment where
  text : String
  tag : Option (Json × Json)

/-- Python slice `s[a:b]` for nonnegative bounds (clamping, empty when
`b ≤ a`). -/
def pySlice (s : String) (a b : Nat) : String :=
  String.mk ((s.data.drop a).take (b - a))

/-- A span endpoint: `span.get(key, default)` coerced to a slice index.
Only integer values reach a slice in the source (anything else would
raise); the model returns the default in that unreachable case. -/
def spanNat (v : Option Json) (dflt : Nat) : Nat :=
  match v with
  | some (.num m 0) => m.toNat
  | _ => dflt

/-- Stable insertion of a span into a list sorted by start offset (ties
keep original order, as Python's stable sort does). -/
def insertSpan (x : Nat × Nat × Json × Json) :
    List (Nat × Nat × Json × Json) → List (Nat × Nat × Json × Json)
  | [] => [x]
  | y :: ys => if x.1 ≤ y.1 then x :: y :: ys else y :: insertSpan x ys

/-- Stable sort of spans by start offset, as the source's key-based list
sort performs. -/
def sortSpans : List (Nat × Nat × Json × Json) → List (Nat × Nat × Json × Json)
  | [] => []
  | x :: xs => insertSpan x (sortSpans xs)

/-- The emission loop: untagged text before each span, the tagged span
itself, cursor jumps to the span end; after the loop, the untagged
remainder. -/
def emitSegments (rt : String) (cursor : Nat) :
    List (Nat × Nat × Json × Json) → List Segment
  | [] =>
      if cursor < rt.data.length then [⟨pySlice rt cursor rt.data.length, none⟩] else []
  | (s, e, label, cid) :: rest =>
      (if cursor < s then [Segment.mk (pySlice rt cursor s) none] else [])
        ++ Segment.mk (pySlice rt s e) (some (label, cid)) :: emitSegments rt e rest

/-- Model of the segment stream of `render_highlighted_report`: with no
alignments or no claims, the whole text as one untagged segment;
otherwise one span per claim from its `sentence_span`, tagged with the
alignment label for its claim id (default `"uncertain"`), sorted stably
by start and emitted left to right.  (A claim or alignment without
`claim_id`/`label` would raise a `KeyError` in the source; such entries
are skipped here — a path no claim exercises.) -/
def render_segments (report_text : String) (alignments claims : List Json) : List Segment :=
  if alignments.isEmpty || claims.isEmpty then [⟨report_text, none⟩]
  else
    let amap := alignments.filterMap (fun a =>
      match jlookup a "claim_id", jlookup a "label" with
      | some k, some l => some (k, l)
      | _, _ => none)
    let spans := claims.map (fun c =>
      let cid := (jlookup c "claim_id").getD (Json.str "")
      let label := ((amap.reverse.find? (fun p => jeqb p.1 cid)).map (·.2)).getD
        (Json.str "uncertain")
      let span := dictGet c "sentence_span" (Json.obj [])
      let s := spanNat (jlookup span "start") 0
      let e := spanNat (jlookup span "end") report_text.data.length
      (s, e, label, cid))
    emitSegments report_text 0 (sortSpans spans)

/-! ## Specification-side definitions

The definitions below are written from the wording of the specification
and of the claims (reference formulas, spec-side predicates, thresholds),
to be compared against the source-side definitions above; plus the
concrete fixtures used by counterexamples and witnesses. -/

/-- The severity tiers as the specification states them:
`score >= 80 → low`, `50 <= score < 80 → medium`, `score < 50 → high`. -/
def severityOf (score : Int) : String :=
  if score ≥ 80 then "low" else if score ≥ 50 then "medium" else "high"

/-- The per-alignment penalty weight as the (amended) claim states it:
`supported → 0`, `needs_review → 25`, and everything else — `uncertain`,
`not_assessable`, any unknown label, a missing label, or a non-string
label value — is treated as `uncertain` and weighs 8. -/
def penaltyWeight (a : Json) : Nat :=
  match jlookup a "label" with
  | some (Json.str s) =>
      if s = "supported" then 0 else if s = "needs_review" then 25 else 8
  | _ => 8

/-- The reference score formula claimed by the specification:
`max(0, 100 - round(100 * t / (25 * count)))` with round-half-up of the
exact rational (`⌊q + 1/2⌋`, computed as an integer division). -/
def refRoundScore (t m : Nat) : Int :=
  max 0 (100 - ((200 * t + m) / (2 * m) : Nat))

/-- Exact truncation of the rational `100 t / m` (floor), the
float-free reading of the source expression. -/
def exactTrunc (t m : Nat) : Int := ((100 * t) / m : Nat)

/-- Lookup in a label histogram (`counts[key]`, as a total query). -/
def countsLookup (cs : List (String × Nat)) (k : String) : Option Nat :=
  (cs.find? (fun p => p.1 = k)).map (·.2)

/-- A serialized value wrapped in a well-formed ```json fenced block
(fence, tag, newline, payload, newline, closing fence). -/
def fenceWrap (cs : List Char) : List Char :=
  fenceTicks ++ 'j' :: 's' :: 'o' :: 'n' :: '\n' :: (cs ++ '\n' :: fenceTicks)

/-- A serialized value embedded in surrounding prose. -/
def proseWrap (cs : List Char) : List Char :=
  "Here is the JSON output requested:\n".data
    ++ cs ++ "\nLet me know if you need anything else.".data

/-- The spec-side flagged-for-rewrite predicate: label is `uncertain` or
`needs_review` (the amended claim; the original claim also listed
`not_assessable` here). -/
def flaggedForRewrite (a : Json) : Prop :=
  jlookup a "label" = some (Json.str "uncertain")
    ∨ jlookup a "label" = some (Json.str "needs_review")

/-- The spec-side flagged-for-summary predicate: label is `uncertain`,
`needs_review`, or `not_assessable`. -/
def flaggedForSummary (a : Json) : Prop :=
  jlookup a "label" = some (Json.str "uncertain")
    ∨ jlookup a "label" = some (Json.str "needs_review")
    ∨ jlookup a "label" = some (Json.str "not_assessable")

/-- An alignment dict with a string label. -/
def mkAlignStr (cid lbl : String) : Json :=
  Json.obj [("claim_id", Json.str cid), ("label", Json.str lbl)]

/-- An alignment dict with an arbitrary label value. -/
def mkAlignLbl (cid : String) (lbl : Json) : Json :=
  Json.obj [("claim_id", Json.str cid), ("label", lbl)]

/-- A claim dict with a sentence span. -/
def mkClaimSpan (cid : String) (s e : Nat) : Json :=
  Json.obj [("claim_id", Json.str cid),
    ("sentence_span", Json.obj [("start", Json.num (s : Int) 0), ("end", Json.num (e : Int) 0)])]

/-- A 40-character report text fixture. -/
def c8text : String := "0123456789012345678901234567890123456789"

/-- A stage oracle whose alignment stage yields a single orphaned
`not_assessable` alignment (no claims), with one schema error recorded;
all other stages succeed with empty results. -/
def c6oracle : String → PromptData → StageOut := fun task _ =>
  if task = "alignment" then
    ⟨Json.obj [("alignments",
        Json.arr [Json.obj [("claim_id", Json.str "zz"), ("label", Json.str "not_assessable")]])],
      ["alignment schema error"]⟩
  else ⟨Json.obj [], []⟩

/-- A generation stub that always returns text with no extractable JSON. -/
def c3genBad : Nat → String → GenResult := fun _ _ => GenResult.txt "static noise"

/-- The schema-valid value the two-attempt generation stub produces. -/
def c3okJson : Json := Json.obj [("claims", Json.arr [])]

/-- A generation stub that fails on attempt 1 and yields a valid payload
from attempt 2 on. -/
def c3genGood : Nat → String → GenResult := fun k _ =>
  if k = 1 then GenResult.txt "nope" else GenResult.txt (String.mk (jdump c3okJson))

/-- Head condition under which `grabDigits` stops immediately: end of
input or a non-digit first character. -/
def noDigitHead (cs : List Char) : Bool :=
  match cs with
  | [] => true
  | c :: _ => (digitOf c).isNone

/-- Head condition under which a decimal literal ends: end of input, or
a first character that is neither a digit nor a decimal point. -/
def numStop (cs : List Char) : Bool :=
  match cs with
  | [] => true
  | c :: _ => (digitOf c).isNone && !(c = '.')

/-- The digit list rendered by `padDecChars`: zero padding, then the
digits of `f`. -/
def padDigits (w f : Nat) : List Nat :=
  List.replicate (w - (decDigits f).length) 0 ++ decDigits f

/-- A concrete object value for the extraction round-trip witness. -/
def c7val : List (String × Json) :=
  [("a", Json.num 1 0), ("b", Json.str "x y"), ("c", Json.arr [Json.null, Json.bool true])]

/-! # Theorems

Helper lemmas first, then the claim theorems with their counterexamples
and witnesses. -/

/-! ## Scoring: the penalty table and loop -/

/-- Enumeration of `penaltyLookup`. -/
theorem penaltyLookup_eq (s : String) :
    penaltyLookup s =
      if s = "supported" then some 0
      else if s = "uncertain" then some 8
      else if s = "needs_review" then some 25
      else none := by
  by_cases h1 : s = "supported"
  · subst h1; decide
  · by_cases h2 : s = "uncertain"
    · subst h2; decide
    · by_cases h3 : s = "needs_review"
      · subst h3; decide
      · have h1s : ¬("supported" = s) := fun e => h1 e.symm
        have h2s : ¬("uncertain" = s) := fun e => h2 e.symm
        have h3s : ¬("needs_review" = s) := fun e => h3 e.symm
        simp [penaltyLookup, PENALTY, List.find?, h1, h2, h3, h1s, h2s, h3s]

/-- What one loop iteration adds to the running total is the claimed
per-alignment weight (with the `uncertain` default for labels outside
the table). -/
theorem penalty_step (a : Json) :
    (penaltyLookup (effLabel a)).getD 0 = penaltyWeight a := by
  unfold effLabel penaltyWeight
  cases h : jlookup a "label" with
  | none => simp [penaltyLookup_eq]
  | some v =>
      cases v with
      | str s =>
          by_cases h1 : s = "supported" <;> by_cases h2 : s = "uncertain"
            <;> by_cases h3 : s = "needs_review"
            <;> simp_all [penaltyLookup_eq]
      | null => simp [penaltyLookup_eq]
      | bool b => simp [penaltyLookup_eq]
      | num m e => simp [penaltyLookup_eq]
      | arr xs => simp [penaltyLookup_eq]
      | obj ps => simp [penaltyLookup_eq]

/-- The loop total is the starting total plus the weight sum. -/
theorem scoreLoop_total (cs : List Json) :
    ∀ counts total, (scoreLoop cs counts total).2 = total + (cs.map penaltyWeight).sum := by
  induction cs with
  | nil => intro counts total; simp [scoreLoop]
  | cons c rest ih =>
      intro counts total
      simp only [scoreLoop, ih, penalty_step, List.map_cons, List.sum_cons]
      omega

/-- Every per-alignment weight is at most the `needs_review` weight. -/
theorem penaltyWeight_le (a : Json) : penaltyWeight a ≤ 25 := by
  unfold penaltyWeight
  cases h : jlookup a "label" with
  | none => simp
  | some v =>
      cases v with
      | str s =>
          by_cases h1 : s = "supported" <;> by_cases h3 : s = "needs_review" <;> simp_all
      | null => simp
      | bool b => simp
      | num m e => simp
      | arr xs => simp
      | obj ps => simp

/-- The total penalty never exceeds the worst case `25 * count`. -/
theorem totalPenalty_le (l : List Json) : totalPenalty l ≤ 25 * l.length := by
  unfold totalPenalty
  rw [scoreLoop_total]
  induction l with
  | nil => simp
  | cons c rest ih =>
      simp only [List.map_cons, List.sum_cons, List.length_cons]
      have := penaltyWeight_le c
      omega

/-- The modelled float truncation is never negative. -/
theorem pyTrunc_nonneg (t m : Nat) : 0 ≤ pyTruncDiv100 t m := by
  unfold pyTruncDiv100
  split
  · exact le_refl 0
  · split
    · exact le_refl 0
    · dsimp only
      split <;> exact Int.natCast_nonneg _

/-- Shape of `compute_score` on a nonempty list. -/
theorem compute_score_nonempty (l : List Json) (h : l ≠ []) :
    compute_score l =
      (max 0 (100 - pyTruncDiv100 (totalPenalty l) (25 * l.length)),
       severityOf (max 0 (100 - pyTruncDiv100 (totalPenalty l) (25 * l.length))),
       (scoreLoop l zeroCounts 0).1) := by
  have hne : l.isEmpty = false := by simpa [List.isEmpty_iff] using h
  have hm : ¬(25 * l.length = 0) := by
    have : l.length ≠ 0 := by simpa [List.length_eq_zero] using h
    omega
  simp only [compute_score, hne, Bool.false_eq_true, if_false, if_neg hm, severityOf,
    totalPenalty]

/-! ## Claim C1 — the penalty table -/

/-- C1 counterexample: the source `PENALTY` table has no
`not_assessable` entry, so an alignment labeled `not_assessable`
contributes 8 (the `uncertain` default), not the 12 the claim states;
with a single such alignment `compute_score` returns 68 (counting it as
`uncertain`), not the 52 a weight of 12 would produce. -/
theorem c1_counterexample :
    totalPenalty [mkAlignStr "a1" "not_assessable"] = 8
    ∧ (8 : Nat) ≠ 12
    ∧ compute_score [mkAlignStr "a1" "not_assessable"]
        = (68, "medium", [("supported", 0), ("uncertain", 1), ("needs_review", 0)]) :=
  ⟨by decide, by decide, by decide⟩

/-- C1 (amended): each alignment contributes a penalty determined solely
by its label with weights `supported → 0`, `uncertain → 8`,
`needs_review → 25`, and every label outside this table — including
`not_assessable` — is treated as `uncertain` and contributes 8; in
particular a `not_assessable` alignment contributes exactly 8. -/
theorem c1_penalty_weights (l : List Json) :
    totalPenalty l = (l.map penaltyWeight).sum
    ∧ totalPenalty [mkAlignStr "a1" "not_assessable"] = 8 :=
  ⟨by unfold totalPenalty; rw [scoreLoop_total]; omega, by decide⟩

/-! ## Claim C5 — the empty input -/

/-- C5 counterexample: the histogram returned for the empty list has no
`not_assessable` key at all (the source initializes counts from the
three-key `PENALTY` table), so it does not map each of the four labels
to 0 as the claim states. -/
theorem c5_counterexample :
    countsLookup (compute_score []).2.2 "not_assessable" = none
    ∧ countsLookup (compute_score []).2.2 "supported" = some 0 :=
  ⟨by decide, by decide⟩

/-- C5 (amended): `compute_score []` returns exactly score 100, severity
`low`, and the histogram mapping the three `PENALTY` labels `supported`,
`uncertain`, `needs_review` to 0 (there is no `not_assessable` key). -/
theorem c5_empty_input :
    compute_score [] = (100, "low", [("supported", 0), ("uncertain", 0), ("needs_review", 0)]) :=
  by decide

/-! ## Claim C4 — score bounds and severity tiers -/

/-- C4: for every alignment list the score lies in `[0, 100]` and the
severity is exactly the threshold tiering of the score (`≥ 80 → low`,
`≥ 50 → medium`, else `high`), hence one of the three tier names. -/
theorem c4_score_bounds (l : List Json) :
    0 ≤ (compute_score l).1 ∧ (compute_score l).1 ≤ 100
    ∧ (compute_score l).2.1 = severityOf (compute_score l).1
    ∧ ((compute_score l).2.1 = "low" ∨ (compute_score l).2.1 = "medium"
        ∨ (compute_score l).2.1 = "high") := by
  by_cases h : l = []
  · subst h
    refine ⟨by decide, by decide, by decide, Or.inl (by decide)⟩
  · rw [compute_score_nonempty l h]
    have hp := pyTrunc_nonneg (totalPenalty l) (25 * l.length)
    refine ⟨le_max_left 0 _, ?_, rfl, ?_⟩
    · have h100 : 100 - pyTruncDiv100 (totalPenalty l) (25 * l.length) ≤ 100 := by omega
      exact max_le (by norm_num) h100
    · unfold severityOf
      split
      · exact Or.inl rfl
      · split
        · exact Or.inr (Or.inl rfl)
        · exact Or.inr (Or.inr rfl)

/-! ## Claim C10 — mock mode short-circuits -/

/-- C10: with mock mode enabled, `infer_structured` returns, for every
prompt, task, validator and generation behaviour, exactly the
pre-generated mock result for the case detected from the mock context,
with an empty error list and an empty generation-call log — so no
generation call, no extraction, no validation and no retry happens, and
mock outputs are never validated against the task schema (the result
does not depend on `validate` or `gen` at all). -/
theorem c10_mock_short_circuit (ctx prompt task : String)
    (validate : Json → List String) (gen : Nat → String → GenResult) :
    infer_structured true ctx validate gen prompt task
      = ⟨mock_result task ctx, [], []⟩ := rfl

/-! ## Claim C6 — the flagged-claim filters -/

/-- C6 counterexample: with an alignment stage yielding one alignment
labeled `not_assessable`, the merged alignment list contains it, yet the
flagged list embedded in the Rewrite-stage prompt is empty — the source
filter at the rewrite stage admits only `uncertain` and `needs_review`,
so a `not_assessable` alignment is not passed to the Rewrite prompt as
the claim states. -/
theorem c6_counterexample :
    (run_audit c6oracle (fun _ => "S") "rpt").alignments
      = [Json.obj [("claim_id", Json.str "zz"), ("label", Json.str "not_assessable"),
          ("claim_text", Json.str "")]]
    ∧ (run_audit c6oracle (fun _ => "S") "rpt").promptLog.get? 3
      = some ("rewrite", PromptData.rewriteStage "rpt" [] "S") :=
  ⟨rfl, rfl⟩

/-- C6 (amended): the flagged list embedded in the Rewrite prompt is
exactly the alignments labeled `uncertain` or `needs_review` (and not
`not_assessable`), while the flagged list embedded in the
ClinicianSummary prompt is exactly those labeled `uncertain`,
`needs_review`, or `not_assessable`. -/
theorem c6_flagged_filters (infer : String → PromptData → StageOut)
    (st : String → String) (rt : String) :
    (run_audit infer st rt).promptLog.get? 3
      = some ("rewrite", PromptData.rewriteStage rt
          ((run_audit infer st rt).alignments.filter
            (fun a => labelIs a ["uncertain", "needs_review"]))
          (st "rewrite"))
    ∧ (run_audit infer st rt).promptLog.get? 4
      = some ("clinician_summary", PromptData.clinicianSummary
          (run_audit infer st rt).overall_score (run_audit infer st rt).severity
          (run_audit infer st rt).flag_counts
          ((run_audit infer st rt).alignments.filter
            (fun a => labelIs a ["uncertain", "needs_review", "not_assessable"]))
          (st "clinician_summary"))
    ∧ (∀ a, labelIs a ["uncertain", "needs_review"] = true ↔ flaggedForRewrite a)
    ∧ (∀ a, labelIs a ["uncertain", "needs_review", "not_assessable"] = true
        ↔ flaggedForSummary a) := by
  refine ⟨rfl, rfl, ?_, ?_⟩
  · intro a
    unfold labelIs flaggedForRewrite
    cases h : jlookup a "label" with
    | none => simp
    | some v =>
        cases v with
        | str s => simp [List.contains, or_assoc]
        | null => simp
        | bool b => simp
        | num m e => simp
        | arr xs => simp
        | obj ps => simp
  · intro a
    unfold labelIs flaggedForSummary
    cases h : jlookup a "label" with
    | none => simp
    | some v =>
        cases v with
        | str s => simp [List.contains, or_assoc]
        | null => simp
        | bool b => simp
        | num m e => simp
        | arr xs => simp
        | obj ps => simp

/-! ## Claim C9 — orphaned claim references are tolerated -/

/-- C9: an alignment whose `claim_id` matches no extracted claim gets
`claim_text` defaulted to the empty string by the merge step, and the
run's `pipeline_errors` are exactly the concatenation of the six stage
error lists returned by the inference oracle — the merge step never
contributes an entry, so an orphaned reference is never surfaced as an
error and the (total) pipeline function completes normally. -/
theorem c9_orphan_tolerated :
    (∀ (claims : List Json) (a : Json),
        claimFind claims ((jlookup a "claim_id").getD (Json.str "")) = none →
        mergeClaimText claims [a] = [jsetField a "claim_text" (Json.str "")])
    ∧ (∀ (infer : String → PromptData → StageOut) (st : String → String) (rt : String),
        (run_audit infer st rt).pipeline_errors
          = ((run_audit infer st rt).promptLog.map (fun q => (infer q.1 q.2).errors)).flatten) := by
  constructor
  · intro claims a h
    simp [mergeClaimText, h]
  · intro infer st rt
    simp [run_audit]

/-- C9 witness: a concrete orphaned `not_assessable` alignment (empty
claim list) gets the empty claim text, and on a concrete oracle run the
pipeline errors are exactly the stage errors. -/
theorem c9_witness :
    mergeClaimText [] [mkAlignStr "zz" "not_assessable"]
      = [jsetField (mkAlignStr "zz" "not_assessable") "claim_text" (Json.str "")]
    ∧ (run_audit c6oracle (fun _ => "S") "rpt").pipeline_errors
      = (((run_audit c6oracle (fun _ => "S") "rpt").promptLog.map
          (fun q => (c6oracle q.1 q.2).errors)).flatten) :=
  ⟨c9_orphan_tolerated.1 [] (mkAlignStr "zz" "not_assessable") rfl,
   c9_orphan_tolerated.2 c6oracle (fun _ => "S") "rpt"⟩

/-! ## Claim C3 — the bounded retry protocol -/

/-- C3: with mock mode disabled, (i) a generation behaviour from which no
structured value is ever extractable makes `infer_structured` call
generation exactly `MAX_RETRIES = 3` times and return the task's
fallback value with a non-empty error list; (ii) a behaviour failing on
attempt 1 but yielding a schema-valid value on attempt 2 makes it return
that value with an empty error list, the attempt-2 prompt being the
original prompt with the correction hint listing the prior errors
appended. -/
theorem c3_retry_protocol (ctx prompt task : String) (validate : Json → List String)
    (g1 g2 : Nat → String → GenResult) (s1 s2 : String) (v : Json)
    (h1 : ∀ k p, ∃ s, g1 k p = GenResult.txt s ∧ extract_json_from_text s.data = none)
    (h2a : g2 1 prompt = GenResult.txt s1)
    (h2b : extract_json_from_text s1.data = none)
    (h2c : g2 2 (prompt ++ retryHint [noJsonMsg s1]) = GenResult.txt s2)
    (h2d : extract_json_from_text s2.data = some v)
    (h2e : validate v = []) :
    ((infer_structured false ctx validate g1 prompt task).result = fallback_result task
      ∧ (infer_structured false ctx validate g1 prompt task).errors ≠ []
      ∧ (infer_structured false ctx validate g1 prompt task).promptsUsed.length = MAX_RETRIES)
    ∧ infer_structured false ctx validate g2 prompt task
        = ⟨v, [], [prompt, prompt ++ retryHint [noJsonMsg s1]]⟩ := by
  constructor
  · obtain ⟨t1, hg1, he1⟩ := h1 1 prompt
    obtain ⟨t2, hg2, he2⟩ := h1 2 (prompt ++ retryHint [noJsonMsg t1])
    obtain ⟨t3, hg3, he3⟩ := h1 3 (prompt ++ retryHint [noJsonMsg t2])
    have key : infer_structured false ctx validate g1 prompt task
        = ⟨fallback_result task, [noJsonMsg t3],
           [prompt, prompt ++ retryHint [noJsonMsg t1], prompt ++ retryHint [noJsonMsg t2]]⟩ := by
      simp +decide [infer_structured, MAX_RETRIES, inferLoop, hg1, he1, hg2, he2, hg3, he3]
    rw [key]
    exact ⟨rfl, by simp, rfl⟩
  · have key : infer_structured false ctx validate g2 prompt task
        = ⟨v, [], [prompt, prompt ++ retryHint [noJsonMsg s1]]⟩ := by
      simp +decide [infer_structured, MAX_RETRIES, inferLoop, h2a, h2b, h2c, h2d, h2e]
    exact key

/-- C3 witness: an always-noise stub yields the fallback after exactly 3
calls with a non-empty error list; a fails-once stub yields the valid
value, no errors, and the hint-extended second prompt. -/
theorem c3_witness :
    ((infer_structured false "ctx" (fun _ => []) c3genBad "P" "claim_extraction").result
        = fallback_result "claim_extraction"
      ∧ (infer_structured false "ctx" (fun _ => []) c3genBad "P" "claim_extraction").errors ≠ []
      ∧ (infer_structured false "ctx" (fun _ => []) c3genBad "P"
          "claim_extraction").promptsUsed.length = MAX_RETRIES)
    ∧ infer_structured false "ctx" (fun _ => []) c3genGood "P" "claim_extraction"
        = ⟨c3okJson, [], ["P", "P" ++ retryHint [noJsonMsg "nope"]]⟩ :=
  c3_retry_protocol "ctx" "P" "claim_extraction" (fun _ => []) c3genBad c3genGood
    "nope" (String.mk (jdump c3okJson)) c3okJson
    (fun _ _ => ⟨"static noise", rfl, rfl⟩)
    rfl rfl rfl rfl rfl

/-! ## Claim C2 — the score formula: float truncation, not rounding

The helper lemmas bound the modelled double rounding: each `flFrac`
rounding step has relative error at most `2^-53`, so the two-step
computation lands within `1/2` of the exact rational `100 t / m`, and
the truncated result is within one of the exact floor. -/

/-- Round-to-nearest lands within one half of the exact fraction. -/
theorem rne_bounds (p q : Nat) (hq : 0 < q) :
    ((p:ℚ)/q - 1/2 ≤ rne p q) ∧ ((rne p q : ℚ) ≤ (p:ℚ)/q + 1/2) := by
  have hq0 : (0:ℚ) < q := by exact_mod_cast hq
  have hmod : q * (p / q) + p % q = p := Nat.div_add_mod p q
  have hlt : p % q < q := Nat.mod_lt _ hq
  have hmodQ : (q:ℚ) * ((p / q : Nat) : ℚ) + ((p % q : Nat) : ℚ) = (p:ℚ) := by
    exact_mod_cast hmod
  have hpq : (p:ℚ) / q = (p / q : Nat) + (p % q : Nat) / q := by
    field_simp
    linarith [hmodQ]
  have hr0 : (0:ℚ) ≤ ((p % q : Nat) : ℚ) / q := by positivity
  have hr1 : ((p % q : Nat) : ℚ) / q ≤ 1 := by
    rw [div_le_one hq0]
    exact_mod_cast le_of_lt hlt
  unfold rne
  dsimp only
  split
  · rename_i hcase
    have hn : 2 * (p % q) ≤ q := le_of_lt hcase
    have hnQ : 2 * ((p % q : Nat) : ℚ) ≤ (q : ℚ) := by exact_mod_cast hn
    have hhalf : ((p % q : Nat) : ℚ) / q ≤ 1/2 := by
      rw [div_le_div_iff hq0 (by norm_num)]
      linarith
    constructor
    · rw [hpq]; push_cast; linarith
    · rw [hpq]; push_cast; linarith
  · split
    · rename_i hcase1 hcase2
      have hn : q ≤ 2 * (p % q) := le_of_lt hcase2
      have hnQ : (q : ℚ) ≤ 2 * ((p % q : Nat) : ℚ) := by exact_mod_cast hn
      have hhalf : (1:ℚ)/2 ≤ ((p % q : Nat) : ℚ) / q := by
        rw [div_le_div_iff (by norm_num) hq0]
        linarith
      constructor
      · rw [hpq]; push_cast; linarith
      · rw [hpq]; push_cast; linarith
    · rename_i hcase1 hcase2
      have hn : q = 2 * (p % q) := by omega
      have hnQ : (q : ℚ) = 2 * ((p % q : Nat) : ℚ) := by exact_mod_cast hn
      have hhalf : ((p % q : Nat) : ℚ) / q = 1/2 := by
        rw [div_eq_div_iff (ne_of_gt hq0) (by norm_num : (2:ℚ) ≠ 0)]
        linarith
      split
      · constructor
        · rw [hpq]; push_cast; linarith
        · rw [hpq]; push_cast; linarith
      · constructor
        · rw [hpq]; push_cast; linarith
        · rw [hpq]; push_cast; linarith

/-- Specification of the upward exponent search. -/
theorem ratLog2Up_spec : ∀ (fuel a b : Nat), 0 < b → b ≤ a → a < b * 2 ^ fuel →
    b * 2 ^ (ratLog2Up fuel a b) ≤ a ∧ a < b * 2 ^ (ratLog2Up fuel a b + 1) := by
  intro fuel
  induction fuel with
  | zero =>
      intro a b hb hba hfuel
      simp only [pow_zero, mul_one] at hfuel
      omega
  | succ f ih =>
      intro a b hb hba hfuel
      unfold ratLog2Up
      split
      · rename_i hcase
        constructor
        · simpa using hba
        · have : b * 2 ^ (0 + 1) = 2 * b := by ring
          omega
      · rename_i hcase
        have h2b : 2 * b ≤ a := by omega
        have hfuel2 : a < 2 * b * 2 ^ f := by
          have : b * 2 ^ (f + 1) = 2 * b * 2 ^ f := by ring
          omega
        obtain ⟨ih1, ih2⟩ := ih a (2 * b) (by omega) h2b hfuel2
        constructor
        · have : b * 2 ^ (ratLog2Up f a (2 * b) + 1) = 2 * b * 2 ^ (ratLog2Up f a (2 * b)) := by
            ring
          omega
        · have : b * 2 ^ (ratLog2Up f a (2 * b) + 1 + 1)
              = 2 * b * 2 ^ (ratLog2Up f a (2 * b) + 1) := by ring
          omega

/-- The downward search returns zero as soon as the fraction is at least
one. -/
theorem ratLog2Dn_zero (fuel a b : Nat) (h : b ≤ a) : ratLog2Dn fuel a b = 0 := by
  cases fuel with
  | zero => rfl
  | succ f => unfold ratLog2Dn; rw [if_pos h]

/-- Specification of the downward exponent search. -/
theorem ratLog2Dn_spec : ∀ (fuel a b : Nat), 0 < a → 0 < b → b ≤ a * 2 ^ fuel →
    b ≤ a * 2 ^ (ratLog2Dn fuel a b) ∧ (a < b → a * 2 ^ (ratLog2Dn fuel a b) < 2 * b) := by
  intro fuel
  induction fuel with
  | zero =>
      intro a b ha hb hfuel
      simp only [pow_zero, mul_one] at hfuel
      refine ⟨by simpa [ratLog2Dn] using hfuel, fun hab => absurd hab (by omega)⟩
  | succ f ih =>
      intro a b ha hb hfuel
      unfold ratLog2Dn
      split
      · rename_i hcase
        refine ⟨by simpa using hcase, fun hab => absurd hab (by omega)⟩
      · rename_i hcase
        have hab : a < b := by omega
        have hfuel2 : b ≤ 2 * a * 2 ^ f := by
          have : a * 2 ^ (f + 1) = 2 * a * 2 ^ f := by ring
          omega
        obtain ⟨ih1, ih2⟩ := ih (2 * a) b (by omega) hb hfuel2
        constructor
        · have : a * 2 ^ (ratLog2Dn f (2 * a) b + 1) = 2 * a * 2 ^ (ratLog2Dn f (2 * a) b) := by
            ring
          omega
        · intro _
          by_cases h2ab : 2 * a < b
          · have := ih2 h2ab
            have heq : a * 2 ^ (ratLog2Dn f (2 * a) b + 1)
                = 2 * a * 2 ^ (ratLog2Dn f (2 * a) b) := by ring
            omega
          · have hz : ratLog2Dn f (2 * a) b = 0 := ratLog2Dn_zero f (2 * a) b (by omega)
            rw [hz]
            simpa [pow_one] using by omega
      
/-- The binary exponent bracket, over the rationals. -/
theorem ratLog2_spec (a b : Nat) (ha : 0 < a) (hb : 0 < b) :
    (2:ℚ) ^ (ratLog2 a b) ≤ (a : ℚ) / b ∧ (a : ℚ) / b < 2 ^ (ratLog2 a b + 1) := by
  have ha0 : (0:ℚ) < a := by exact_mod_cast ha
  have hb0 : (0:ℚ) < b := by exact_mod_cast hb
  unfold ratLog2
  split
  · rename_i hba
    have hfuel : a < b * 2 ^ a := by
      calc a < 2 ^ a := Nat.lt_two_pow a
      _ ≤ b * 2 ^ a := Nat.le_mul_of_pos_left _ hb
    obtain ⟨h1, h2⟩ := ratLog2Up_spec a a b hb hba hfuel
    constructor
    · rw [zpow_natCast, le_div_iff hb0]
      calc (2:ℚ) ^ ratLog2Up a a b * b = b * 2 ^ ratLog2Up a a b := by ring
      _ ≤ a := by exact_mod_cast h1
    · rw [show ((ratLog2Up a a b : ℤ) + 1) = ((ratLog2Up a a b + 1 : ℕ) : ℤ) by push_cast; ring,
        zpow_natCast, div_lt_iff hb0]
      calc (a:ℚ) < b * 2 ^ (ratLog2Up a a b + 1) := by exact_mod_cast h2
      _ = 2 ^ (ratLog2Up a a b + 1) * b := by ring
  · rename_i hba
    have hab : a < b := by omega
    have hfuel : b ≤ a * 2 ^ b := by
      calc b ≤ 2 ^ b := le_of_lt (Nat.lt_two_pow b)
      _ ≤ a * 2 ^ b := Nat.le_mul_of_pos_left _ ha
    obtain ⟨h1, h2⟩ := ratLog2Dn_spec b a b ha hb hfuel
    have h2' := h2 hab
    set k := ratLog2Dn b a b with hk
    constructor
    · rw [zpow_neg, zpow_natCast, inv_eq_one_div, div_le_div_iff (by positivity) hb0]
      calc (1:ℚ) * b = b := by ring
      _ ≤ a * 2 ^ k := by exact_mod_cast h1
    · rw [show (-(k:ℤ) + 1) = (1:ℤ) - (k:ℤ) by ring, zpow_sub₀ (by norm_num), zpow_one,
        zpow_natCast, div_lt_div_iff hb0 (by positivity)]
      calc (a:ℚ) * 2 ^ k < 2 * b := by exact_mod_cast h2'
      _ = 2 * b := rfl

/-- Collapse a split power pair back to a signed power. -/
theorem two_zpow_split (s : ℤ) :
    ((2:ℚ) ^ s.toNat) / ((2:ℚ) ^ (-s).toNat) = (2:ℚ) ^ s := by
  rcases le_or_lt 0 s with hs | hs
  · have h1 : (-s).toNat = 0 := by omega
    have h2 : (s.toNat : ℤ) = s := Int.toNat_of_nonneg hs
    rw [h1, pow_zero, div_one, ← zpow_natCast, h2]
  · have h1 : s.toNat = 0 := by omega
    have h2 : (((-s).toNat : ℕ) : ℤ) = -s := Int.toNat_of_nonneg (by omega)
    rw [h1, pow_zero, ← zpow_natCast (2:ℚ) (-s).toNat, h2, one_div, ← zpow_neg, neg_neg]

/-- One rounding step has relative error at most `2^-53` (on either
side). -/
theorem flVal_bounds (a b : Nat) (ha : 0 < a) (hb : 0 < b) :
    (a:ℚ)/b * (1 - ((2:ℚ)^53)⁻¹) ≤ flVal a b
    ∧ flVal a b ≤ (a:ℚ)/b * (1 + ((2:ℚ)^53)⁻¹) := by
  have ha0 : (0:ℚ) < a := by exact_mod_cast ha
  have hb0 : (0:ℚ) < b := by exact_mod_cast hb
  obtain ⟨hlow, hhigh⟩ := ratLog2_spec a b ha hb
  set e := ratLog2 a b with he
  set s : ℤ := 52 - e with hs
  set A := a * 2 ^ s.toNat with hA
  set B := b * 2 ^ (-s).toNat with hB
  have hBpos : 0 < B := by positivity
  have hB0 : (0:ℚ) < B := by exact_mod_cast hBpos
  have hsPos : (0:ℚ) < 2 ^ s := zpow_pos (by norm_num) s
  have hABval : (A:ℚ)/B = (a:ℚ)/b * 2 ^ s := by
    have : (A:ℚ)/B = ((a:ℚ) * 2 ^ s.toNat) / ((b:ℚ) * 2 ^ (-s).toNat) := by
      rw [hA, hB]; push_cast; ring_nf
    rw [this, mul_div_mul_comm, two_zpow_split]
  have hflVal : flVal a b = (rne A B : ℚ) / 2 ^ s := by
    simp only [flVal, flFrac, hA, hB, hs, he]
  have h1 := (rne_bounds A B hBpos).1
  have h2 := (rne_bounds A B hBpos).2
  have hup : flVal a b ≤ (a:ℚ)/b + (1/2) / 2 ^ s := by
    rw [hflVal]
    calc (rne A B : ℚ) / 2 ^ s ≤ ((A:ℚ)/B + 1/2) / 2 ^ s := by
          exact (div_le_div_right hsPos).mpr h2
    _ = (a:ℚ)/b + (1/2) / 2 ^ s := by
          rw [hABval, add_div, mul_div_assoc, div_self (ne_of_gt hsPos), mul_one]
  have hdn : (a:ℚ)/b - (1/2) / 2 ^ s ≤ flVal a b := by
    rw [hflVal]
    calc (a:ℚ)/b - (1/2) / 2 ^ s = ((A:ℚ)/B - 1/2) / 2 ^ s := by
          rw [hABval, sub_div, mul_div_assoc, div_self (ne_of_gt hsPos), mul_one]
    _ ≤ (rne A B : ℚ) / 2 ^ s := by
          exact (div_le_div_right hsPos).mpr h1
  have hhalf : (1/2 : ℚ) / 2 ^ s ≤ (a:ℚ)/b * ((2:ℚ)^53)⁻¹ := by
    rw [div_le_iff hsPos]
    have hkey : (2:ℚ) ^ e * 2 ^ s = 2 ^ (52:ℤ) := by
      rw [← zpow_add₀ (by norm_num : (2:ℚ) ≠ 0)]
      congr 1
      omega
    have hstep : (2:ℚ)^e * ((2:ℚ)^53)⁻¹ * 2 ^ s ≤ (a:ℚ)/b * ((2:ℚ)^53)⁻¹ * 2 ^ s := by
      have hinv : (0:ℚ) ≤ ((2:ℚ)^53)⁻¹ := by positivity
      have := mul_le_mul_of_nonneg_right (mul_le_mul_of_nonneg_right hlow hinv) (le_of_lt hsPos)
      exact this
    have h52 : ((2:ℚ) ^ (52:ℤ)) = ((2:ℚ) ^ (52:ℕ)) := by
      rw [show (52:ℤ) = ((52:ℕ):ℤ) by norm_num, zpow_natCast]
    calc (1/2 : ℚ) = (2:ℚ) ^ (52:ℕ) * ((2:ℚ)^53)⁻¹ := by
          rw [show ((2:ℚ)^53) = ((2:ℚ)^(52:ℕ)) * 2 from by ring]
          rw [mul_inv, ← mul_assoc,
            mul_inv_cancel₀ (by positivity : ((2:ℚ)^(52:ℕ)) ≠ 0)]
          norm_num
    _ = (2:ℚ) ^ (52:ℤ) * ((2:ℚ)^53)⁻¹ := by rw [h52]
    _ = (2:ℚ)^e * ((2:ℚ)^53)⁻¹ * 2 ^ s := by rw [← hkey]; ring
    _ ≤ (a:ℚ)/b * ((2:ℚ)^53)⁻¹ * 2 ^ s := hstep
  constructor
  · calc (a:ℚ)/b * (1 - ((2:ℚ)^53)⁻¹) = (a:ℚ)/b - (a:ℚ)/b * ((2:ℚ)^53)⁻¹ := by ring
    _ ≤ (a:ℚ)/b - (1/2) / 2 ^ s := by linarith
    _ ≤ flVal a b := hdn
  · calc flVal a b ≤ (a:ℚ)/b + (1/2) / 2 ^ s := hup
    _ ≤ (a:ℚ)/b + (a:ℚ)/b * ((2:ℚ)^53)⁻¹ := by linarith
    _ = (a:ℚ)/b * (1 + ((2:ℚ)^53)⁻¹) := by ring

/-- A rounding result is strictly positive on positive input. -/
theorem flVal_pos (a b : Nat) (ha : 0 < a) (hb : 0 < b) : 0 < flVal a b := by
  have h := (flVal_bounds a b ha hb).1
  have ha0 : (0:ℚ) < a := by exact_mod_cast ha
  have hb0 : (0:ℚ) < b := by exact_mod_cast hb
  have hq : (0:ℚ) < (a:ℚ)/b := by positivity
  have hu : (0:ℚ) < 1 - ((2:ℚ)^53)⁻¹ := by norm_num
  nlinarith

/-- The rounded mantissa is positive on positive input. -/
theorem flFrac_fst_pos (a b : Nat) (ha : 0 < a) (hb : 0 < b) : 0 < (flFrac a b).1 := by
  have hv := flVal_pos a b ha hb
  rcases Nat.eq_zero_or_pos (flFrac a b).1 with h0 | hpos
  · exfalso
    unfold flVal at hv
    rw [h0] at hv
    simp at hv
  · exact hpos

/-- The integer branch arithmetic of `pyTruncDiv100` is the floor of the
rational value of its second rounding. -/
theorem pyTrunc_floor (t m : Nat) (ht : 0 < t) (hm : 0 < m) :
    pyTruncDiv100 t m
      = ⌊flVal ((flFrac t m).1 * 100 * 2 ^ (-(flFrac t m).2).toNat)
          (2 ^ (flFrac t m).2.toNat)⌋ := by
  unfold pyTruncDiv100
  rw [if_neg (by omega), if_neg (by omega)]
  dsimp only
  set A2 := (flFrac t m).1 * 100 * 2 ^ (-(flFrac t m).2).toNat with hA2
  set B2 := 2 ^ (flFrac t m).2.toNat with hB2
  clear_value A2 B2
  unfold flVal
  set n2 := (flFrac A2 B2).1 with hn2
  set s2 := (flFrac A2 B2).2 with hs2
  clear_value n2 s2
  split
  · rename_i h
    rw [show ((2:ℚ) ^ s2) = (((2 ^ s2.toNat : ℕ)) : ℚ) from by
      push_cast
      rw [← zpow_natCast, Int.toNat_of_nonneg h]]
    rw [Rat.floor_natCast_div_natCast, Int.ofNat_div,
      Int.tdiv_eq_ediv (by positivity) (by positivity)]
  · rename_i h
    rw [show ((n2 : ℚ) / (2:ℚ) ^ s2) = ((n2 * 2 ^ (-s2).toNat : ℕ) : ℚ) from by
      push_cast
      rw [← zpow_natCast (2:ℚ) (-s2).toNat, Int.toNat_of_nonneg (by omega : (0:ℤ) ≤ -s2)]
      rw [div_eq_mul_inv, ← zpow_neg]]
    rw [Int.floor_natCast]

/-- The modelled Python truncation is within one of the exact floor. -/
theorem pyTrunc_near (t m : Nat) (hm : 0 < m) (htm : t ≤ m) :
    exactTrunc t m - 1 ≤ pyTruncDiv100 t m ∧ pyTruncDiv100 t m ≤ exactTrunc t m + 1 := by
  rcases Nat.eq_zero_or_pos t with ht | ht
  · subst ht
    unfold pyTruncDiv100 exactTrunc
    rw [if_neg (by omega), if_pos rfl]
    simp
  · have hm0 : (0:ℚ) < m := by exact_mod_cast hm
    have ht0 : (0:ℚ) < t := by exact_mod_cast ht
    set q : ℚ := (t:ℚ)/m with hqdef
    have hq0 : 0 < q := by rw [hqdef]; positivity
    have hq1 : q ≤ 1 := by
      rw [hqdef, div_le_one hm0]
      exact_mod_cast htm
    set u : ℚ := ((2:ℚ)^53)⁻¹ with hudef
    have hu0 : (0:ℚ) < u := by rw [hudef]; positivity
    have hu1 : u < 1 := by rw [hudef]; norm_num
    have husmall : 100 * (2*u + u^2) < 1/2 := by rw [hudef]; norm_num
    obtain ⟨hf1lo, hf1hi⟩ := flVal_bounds t m ht hm
    rw [← hqdef, ← hudef] at hf1lo hf1hi
    have hf1nonneg : 0 ≤ flVal t m := by nlinarith [hf1lo, hq0, hu1]
    set n1 := (flFrac t m).1 with hn1
    set s1 := (flFrac t m).2 with hs1
    have hn1pos : 0 < n1 := by rw [hn1]; exact flFrac_fst_pos t m ht hm
    set a2 := n1 * 100 * 2 ^ (-s1).toNat with ha2
    set b2 := 2 ^ s1.toNat with hb2
    have ha2pos : 0 < a2 := by rw [ha2]; positivity
    have hb2pos : 0 < b2 := by rw [hb2]; positivity
    have hval2 : (a2:ℚ)/b2 = 100 * flVal t m := by
      have hsplit := two_zpow_split (-s1)
      rw [neg_neg] at hsplit
      have hexp : (a2:ℚ)/b2 = (n1:ℚ) * 100 * ((2:ℚ) ^ (-s1).toNat / (2:ℚ) ^ s1.toNat) := by
        rw [ha2, hb2]
        push_cast
        ring
      rw [hexp, hsplit]
      unfold flVal
      rw [← hn1, ← hs1, zpow_neg, div_eq_mul_inv]
      ring
    obtain ⟨hf2lo, hf2hi⟩ := flVal_bounds a2 b2 ha2pos hb2pos
    rw [hval2, ← hudef] at hf2lo hf2hi
    have h1u_pos : (0:ℚ) ≤ 1 + u := by linarith
    have h1um_pos : (0:ℚ) ≤ 1 - u := by linarith
    clear_value q u n1 s1 a2 b2
    have hchain_hi : flVal a2 b2 ≤ 100*q + 100*(2*u + u^2) := by
      have hmul : 100 * flVal t m * (1+u) ≤ 100 * (q*(1+u)) * (1+u) := by
        have h100 : (0:ℚ) ≤ 100 * (1+u) := by linarith
        nlinarith [mul_le_mul_of_nonneg_right hf1hi h100]
      have step1 : flVal a2 b2 ≤ 100 * (q*(1+u)) * (1+u) := le_trans hf2hi hmul
      have expand : 100 * (q*(1+u)) * (1+u) = 100*q + q * (100*(2*u+u^2)) := by ring
      have hqc : q * (100*(2*u+u^2)) ≤ 1 * (100*(2*u+u^2)) :=
        mul_le_mul_of_nonneg_right hq1 (by positivity)
      rw [expand] at step1
      linarith
    have hchain_lo : 100*q - 100*(2*u + u^2) ≤ flVal a2 b2 := by
      have hmul : 100 * (q*(1-u)) * (1-u) ≤ 100 * flVal t m * (1-u) := by
        have h100 : (0:ℚ) ≤ 100 * (1-u) := by linarith
        nlinarith [mul_le_mul_of_nonneg_right hf1lo h100]
      have step1 : 100 * (q*(1-u)) * (1-u) ≤ flVal a2 b2 := le_trans hmul hf2lo
      have expand : 100 * (q*(1-u)) * (1-u) = 100*q - q * (100*(2*u - u^2)) := by ring
      have hpos2 : (0:ℚ) ≤ 100*(2*u - u^2) := by nlinarith [hu0, hu1]
      have hqc : q * (100*(2*u - u^2)) ≤ 1 * (100*(2*u - u^2)) :=
        mul_le_mul_of_nonneg_right hq1 hpos2
      rw [expand] at step1
      have hsq : (0:ℚ) ≤ u^2 := sq_nonneg u
      linarith
    have hQfloor : (exactTrunc t m : ℤ) = ⌊(100:ℚ)*q⌋ := by
      unfold exactTrunc
      rw [show ((100:ℚ)*q) = (((100 * t : ℕ):ℚ) / ((m:ℕ):ℚ)) from by
        rw [hqdef]; push_cast; ring]
      rw [Rat.floor_natCast_div_natCast, Int.ofNat_div,
        Int.tdiv_eq_ediv (by positivity) (by positivity)]
    have hpy : pyTruncDiv100 t m = ⌊flVal a2 b2⌋ := by
      rw [pyTrunc_floor t m ht hm, ← hn1, ← hs1, ← ha2, ← hb2]
    constructor
    · rw [hpy, hQfloor]
      have h1 : (100:ℚ)*q + ((-1:ℤ):ℚ) ≤ flVal a2 b2 := by push_cast; linarith
      calc ⌊(100:ℚ)*q⌋ - 1 = ⌊(100:ℚ)*q + ((-1:ℤ):ℚ)⌋ := by rw [Int.floor_add_int]; ring
      _ ≤ ⌊flVal a2 b2⌋ := Int.floor_mono h1
    · rw [hpy, hQfloor]
      have h1 : flVal a2 b2 ≤ (100:ℚ)*q + ((1:ℤ):ℚ) := by push_cast; linarith
      calc ⌊flVal a2 b2⌋ ≤ ⌊(100:ℚ)*q + ((1:ℤ):ℚ)⌋ := Int.floor_mono h1
      _ = ⌊(100:ℚ)*q⌋ + 1 := Int.floor_add_int _ _

/-- C2 counterexample: on three alignments `[uncertain, supported,
supported]` the code returns score 90 — `int()` truncation of the float
`10.666…` gives 10 — while the claimed round-half formula gives
`round(32/3) = 11`, hence score 89.  The claim that the returned score
equals the rounding reference bit-for-bit is false. -/
theorem c2_counterexample :
    compute_score [mkAlignStr "a1" "uncertain", mkAlignStr "a2" "supported",
        mkAlignStr "a3" "supported"]
      = (90, "low", [("supported", 2), ("uncertain", 1), ("needs_review", 0)])
    ∧ refRoundScore 8 75 = 89
    ∧ (90 : ℤ) ≠ 89 :=
  ⟨by decide, by decide, by decide⟩

/-- C2 (amended): for every non-empty alignment list the returned score
is `max(0, 100 - T)` where `T` is the Python float truncation
`int((total_penalty / (25·count)) * 100)` — truncation of the
double-precision value, not round-half of the exact rational — and this
truncation always lies within one of the exact rational floor
`⌊100·total_penalty/(25·count)⌋` (it can differ from it, and from the
round-half reference, by one in either direction). -/
theorem c2_truncation_formula (l : List Json) (h : l ≠ []) :
    (compute_score l).1 = max 0 (100 - pyTruncDiv100 (totalPenalty l) (25 * l.length))
    ∧ exactTrunc (totalPenalty l) (25 * l.length) - 1
        ≤ pyTruncDiv100 (totalPenalty l) (25 * l.length)
    ∧ pyTruncDiv100 (totalPenalty l) (25 * l.length)
        ≤ exactTrunc (totalPenalty l) (25 * l.length) + 1 := by
  have hlen : l.length ≠ 0 := by simpa [List.length_eq_zero] using h
  have hm : 0 < 25 * l.length := by omega
  have htm := totalPenalty_le l
  obtain ⟨h1, h2⟩ := pyTrunc_near (totalPenalty l) (25 * l.length) hm htm
  exact ⟨by rw [compute_score_nonempty l h], h1, h2⟩

/-- C2 witness: the four-alignment list `[uncertain, needs_review,
needs_review, supported]` has total penalty 58 of a possible 100; the
float truncation gives 57 (the double product is `57.999…96`), one below
the exact floor 58 — the score is 43 where exact truncation would give
42 and rounding 42. -/
theorem c2_witness :
    ((compute_score [mkAlignStr "a1" "uncertain", mkAlignStr "a2" "needs_review",
        mkAlignStr "a3" "needs_review", mkAlignStr "a4" "supported"]).1
      = max 0 (100 - pyTruncDiv100
          (totalPenalty [mkAlignStr "a1" "uncertain", mkAlignStr "a2" "needs_review",
            mkAlignStr "a3" "needs_review", mkAlignStr "a4" "supported"])
          (25 * [mkAlignStr "a1" "uncertain", mkAlignStr "a2" "needs_review",
            mkAlignStr "a3" "needs_review", mkAlignStr "a4" "supported"].length))
      ∧ exactTrunc (totalPenalty [mkAlignStr "a1" "uncertain", mkAlignStr "a2" "needs_review",
            mkAlignStr "a3" "needs_review", mkAlignStr "a4" "supported"])
          (25 * [mkAlignStr "a1" "uncertain", mkAlignStr "a2" "needs_review",
            mkAlignStr "a3" "needs_review", mkAlignStr "a4" "supported"].length) - 1
        ≤ pyTruncDiv100 (totalPenalty [mkAlignStr "a1" "uncertain",
            mkAlignStr "a2" "needs_review", mkAlignStr "a3" "needs_review",
            mkAlignStr "a4" "supported"])
          (25 * [mkAlignStr "a1" "uncertain", mkAlignStr "a2" "needs_review",
            mkAlignStr "a3" "needs_review", mkAlignStr "a4" "supported"].length)
      ∧ pyTruncDiv100 (totalPenalty [mkAlignStr "a1" "uncertain",
            mkAlignStr "a2" "needs_review", mkAlignStr "a3" "needs_review",
            mkAlignStr "a4" "supported"])
          (25 * [mkAlignStr "a1" "uncertain", mkAlignStr "a2" "needs_review",
            mkAlignStr "a3" "needs_review", mkAlignStr "a4" "supported"].length)
        ≤ exactTrunc (totalPenalty [mkAlignStr "a1" "uncertain",
            mkAlignStr "a2" "needs_review", mkAlignStr "a3" "needs_review",
            mkAlignStr "a4" "supported"])
          (25 * [mkAlignStr "a1" "uncertain", mkAlignStr "a2" "needs_review",
            mkAlignStr "a3" "needs_review", mkAlignStr "a4" "supported"].length) + 1)
    ∧ pyTruncDiv100 58 100 = 57 ∧ exactTrunc 58 100 = 58 :=
  ⟨c2_truncation_formula [mkAlignStr "a1" "uncertain", mkAlignStr "a2" "needs_review",
      mkAlignStr "a3" "needs_review", mkAlignStr "a4" "supported"] (List.cons_ne_nil _ _),
   by decide, by decide⟩

/-! ## Claim C8 — the span-merging renderer -/

/-- C8 counterexample: with a 40-character text and two claims spanning
`[0,10)` and `[20,30)`, the renderer emits 4 segments (tagged, gap,
tagged, tail), not the 3 the claim states. -/
theorem c8_counterexample :
    (render_segments c8text
        [mkAlignStr "c1" "supported", mkAlignStr "c2" "needs_review"]
        [mkClaimSpan "c1" 0 10, mkClaimSpan "c2" 20 30]).length = 4
    ∧ (render_segments c8text
        [mkAlignStr "c1" "supported", mkAlignStr "c2" "needs_review"]
        [mkClaimSpan "c1" 0 10, mkClaimSpan "c2" 20 30]).length ≠ 3 :=
  ⟨by decide, by decide⟩

/-- C8 (amended): for every 40-character text and two claims with spans
`[0,10)` and `[20,30)` (each with an alignment, of any label values), the
renderer emits exactly 4 segments in left-to-right order — the `[0,10)`
span tagged, the `[10,20)` gap untagged, the `[20,30)` span tagged, and
the `[30,40)` tail untagged — and the concatenation of the emitted
segments' source text is the whole input (in particular of equal
length). -/
theorem c8_merge_segments (txt : List Char) (h40 : txt.length = 40) (lbl1 lbl2 : Json) :
    render_segments (String.mk txt)
        [mkAlignLbl "c1" lbl1, mkAlignLbl "c2" lbl2]
        [mkClaimSpan "c1" 0 10, mkClaimSpan "c2" 20 30]
      = [⟨String.mk (txt.take 10), some (lbl1, Json.str "c1")⟩,
         ⟨String.mk ((txt.drop 10).take 10), none⟩,
         ⟨String.mk ((txt.drop 20).take 10), some (lbl2, Json.str "c2")⟩,
         ⟨String.mk (txt.drop 30), none⟩]
    ∧ ((render_segments (String.mk txt)
        [mkAlignLbl "c1" lbl1, mkAlignLbl "c2" lbl2]
        [mkClaimSpan "c1" 0 10, mkClaimSpan "c2" 20 30]).map
          (fun sg => sg.text.data)).flatten = txt
    ∧ (render_segments (String.mk txt)
        [mkAlignLbl "c1" lbl1, mkAlignLbl "c2" lbl2]
        [mkClaimSpan "c1" 0 10, mkClaimSpan "c2" 20 30]).length = 4 := by
  have d1 : (txt.drop 10).drop 10 = txt.drop 20 := by
    rw [List.drop_drop]
  have d2 : (txt.drop 20).drop 10 = txt.drop 30 := by
    rw [List.drop_drop]
  have key : render_segments (String.mk txt)
      [mkAlignLbl "c1" lbl1, mkAlignLbl "c2" lbl2]
      [mkClaimSpan "c1" 0 10, mkClaimSpan "c2" 20 30]
    = [⟨String.mk (txt.take 10), some (lbl1, Json.str "c1")⟩,
       ⟨String.mk ((txt.drop 10).take 10), none⟩,
       ⟨String.mk ((txt.drop 20).take 10), some (lbl2, Json.str "c2")⟩,
       ⟨String.mk (txt.drop 30), none⟩] := by
    have hlen : (String.mk txt).data.length = 40 := h40
    simp [render_segments, mkAlignLbl, mkClaimSpan, jlookup, dictGet, jeqb, spanNat,
      sortSpans, insertSpan, emitSegments, pySlice, hlen, List.find?]
    rw [List.take_of_length_le (by simp [h40])]
  refine ⟨key, ?_, by rw [key]; rfl⟩
  rw [key]
  simp only [List.map_cons, List.map_nil, List.flatten]
  show txt.take 10 ++ ((txt.drop 10).take 10 ++ ((txt.drop 20).take 10 ++ (txt.drop 30 ++ []))) = txt
  rw [List.append_nil]
  conv_rhs => rw [← List.take_append_drop 10 txt]
  congr 1
  conv_rhs => rw [← List.take_append_drop 10 (txt.drop 10)]
  congr 1
  rw [d1]
  conv_rhs => rw [← List.take_append_drop 10 (txt.drop 20)]
  congr 1
  rw [d2]

/-- C8 witness: the concrete 40-character digit text with supported and
needs-review labels yields exactly the four segments and the full-text
concatenation. -/
theorem c8_witness :
    render_segments (String.mk c8text.data)
        [mkAlignLbl "c1" (Json.str "supported"), mkAlignLbl "c2" (Json.str "needs_review")]
        [mkClaimSpan "c1" 0 10, mkClaimSpan "c2" 20 30]
      = [⟨String.mk (c8text.data.take 10), some (Json.str "supported", Json.str "c1")⟩,
         ⟨String.mk ((c8text.data.drop 10).take 10), none⟩,
         ⟨String.mk ((c8text.data.drop 20).take 10), some (Json.str "needs_review", Json.str "c2")⟩,
         ⟨String.mk (c8text.data.drop 30), none⟩]
    ∧ ((render_segments (String.mk c8text.data)
        [mkAlignLbl "c1" (Json.str "supported"), mkAlignLbl "c2" (Json.str "needs_review")]
        [mkClaimSpan "c1" 0 10, mkClaimSpan "c2" 20 30]).map
          (fun sg => sg.text.data)).flatten = c8text.data
    ∧ (render_segments (String.mk c8text.data)
        [mkAlignLbl "c1" (Json.str "supported"), mkAlignLbl "c2" (Json.str "needs_review")]
        [mkClaimSpan "c1" 0 10, mkClaimSpan "c2" 20 30]).length = 4 :=
  c8_merge_segments c8text.data (by decide) (Json.str "supported") (Json.str "needs_review")


/-! ## C7: codec round-trip and the three extraction paths

The development below proves that `jparse` inverts `jdump` (digit-list
lemmas, string-escape inverse, number inverse, then a mutual induction
over the grammar mirroring the serializer), and that the fenced-block
and brace-fallback search paths of `extract_json_from_text` recover the
serialized payload from its wrapped forms. -/

theorem decDigitsAux_fuel : ∀ f1 f2 n, n < f1 → n < f2 → decDigitsAux f1 n = decDigitsAux f2 n := by
  intro f1
  induction f1 with
  | zero => intro f2 n h1 _; exact absurd h1 (Nat.not_lt_zero n)
  | succ f ih =>
      intro f2 n h1 h2
      cases f2 with
      | zero => exact absurd h2 (Nat.not_lt_zero n)
      | succ g =>
          simp only [decDigitsAux]
          by_cases hn : n < 10
          · rw [if_pos hn, if_pos hn]
          · rw [if_neg hn, if_neg hn]
            have hd : n / 10 < n := Nat.div_lt_self (by omega) (by omega)
            rw [ih g (n / 10) (by omega) (by omega)]

theorem decDigitsAux_succ (f n : Nat) :
    decDigitsAux (f + 1) n = if n < 10 then [n] else decDigitsAux f (n / 10) ++ [n % 10] := rfl

theorem decDigits_def (n : Nat) :
    decDigits n = if n < 10 then [n] else decDigits (n / 10) ++ [n % 10] := by
  unfold decDigits
  rw [decDigitsAux_succ]
  by_cases hn : n < 10
  · rw [if_pos hn, if_pos hn]
  · rw [if_neg hn, if_neg hn]
    have hd : n / 10 < n := Nat.div_lt_self (by omega) (by omega)
    exact congrArg (fun t => t ++ [n % 10])
      (decDigitsAux_fuel n (n / 10 + 1) (n / 10) (by omega) (by omega))

theorem decDigits_lt (n : Nat) : ∀ d ∈ decDigits n, d < 10 := by
  induction n using Nat.strong_induction_on with
  | _ n ih =>
      rw [decDigits_def]
      by_cases hn : n < 10
      · rw [if_pos hn]; intro d hd; simp at hd; omega
      · rw [if_neg hn]
        intro d hd
        rcases List.mem_append.mp hd with h | h
        · exact ih (n / 10) (Nat.div_lt_self (by omega) (by omega)) d h
        · simp at h; omega

theorem decDigits_ne_nil (n : Nat) : decDigits n ≠ [] := by
  rw [decDigits_def]
  by_cases hn : n < 10
  · rw [if_pos hn]; simp
  · rw [if_neg hn]; simp

theorem decDigits_foldl (n : Nat) :
    ∀ acc, (decDigits n).foldl (fun a d => a * 10 + d) acc
      = acc * 10 ^ (decDigits n).length + n := by
  induction n using Nat.strong_induction_on with
  | _ n ih =>
      intro acc
      rw [decDigits_def]
      by_cases hn : n < 10
      · rw [if_pos hn]; simp [List.foldl]
      · rw [if_neg hn]
        have hd : n / 10 < n := Nat.div_lt_self (by omega) (by omega)
        rw [List.foldl_append, List.length_append]
        simp only [List.foldl, List.length]
        rw [ih (n / 10) hd acc]
        have hmod := Nat.div_add_mod n 10
        rw [show (decDigits (n / 10)).length + (0 + 1) = (decDigits (n / 10)).length + 1 by omega,
          pow_succ, ← mul_assoc]
        generalize acc * 10 ^ (decDigits (n / 10)).length = M
        omega

theorem decDigits_length_le (n : Nat) : ∀ w, 0 < w → n < 10 ^ w → (decDigits n).length ≤ w := by
  induction n using Nat.strong_induction_on with
  | _ n ih =>
      intro w hw h
      rw [decDigits_def]
      by_cases hn : n < 10
      · rw [if_pos hn]; simpa using hw
      · rw [if_neg hn]
        rw [List.length_append]
        have hw2 : 2 ≤ w := by
          rcases Nat.lt_or_ge w 2 with hlt | hge
          · have hw1 : w = 1 := by omega
            rw [hw1, pow_one] at h; omega
          · exact hge
        have hdiv : n / 10 < 10 ^ (w - 1) := by
          have hp : 10 ^ w = 10 ^ (w - 1) * 10 := by
            conv_lhs => rw [show w = (w - 1) + 1 by omega]
            exact pow_succ 10 (w - 1)
          exact Nat.div_lt_of_lt_mul (by omega)
        have hle := ih (n / 10) (Nat.div_lt_self (by omega) (by omega)) (w - 1) (by omega) hdiv
        simp only [List.length]
        omega

theorem digitOf_decChar (d : Nat) (h : d < 10) : digitOf (decChar d) = some d := by
  interval_cases d <;> rfl

theorem decChar_facts (d : Nat) :
    isBlank (decChar d) = false ∧ decChar d ≠ ']' ∧ decChar d ≠ '}' := by
  unfold decChar
  split <;> exact ⟨rfl, by decide, by decide⟩

theorem blankDrop_cons_false (c : Char) (h : isBlank c = false) (z : List Char) :
    blankDrop (c :: z) = c :: z := by
  simp [blankDrop, h]

theorem blankDrop_cons_true (c : Char) (h : isBlank c = true) (z : List Char) :
    blankDrop (c :: z) = blankDrop z := by
  simp [blankDrop, h]

theorem numStop_noDigit (cs : List Char) (h : numStop cs = true) : noDigitHead cs = true := by
  cases cs with
  | nil => rfl
  | cons c r =>
      simp only [numStop, Bool.and_eq_true] at h
      simp only [noDigitHead, h.1]

theorem grabDigits_stop (acc cnt : Nat) (cs : List Char) (h : noDigitHead cs = true) :
    grabDigits acc cnt cs = (acc, cnt, cs) := by
  cases cs with
  | nil => rfl
  | cons c r =>
      simp only [noDigitHead, Option.isNone_iff_eq_none] at h
      simp only [grabDigits, h]

theorem grabDigits_run (ds : List Nat) (h : ∀ d ∈ ds, d < 10) :
    ∀ acc cnt rest, noDigitHead rest = true →
      grabDigits acc cnt (ds.map decChar ++ rest)
        = (ds.foldl (fun a d => a * 10 + d) acc, cnt + ds.length, rest) := by
  induction ds with
  | nil =>
      intro acc cnt rest hr
      simpa using grabDigits_stop acc cnt rest hr
  | cons d ds ih =>
      intro acc cnt rest hr
      have hd : d < 10 := h d (List.mem_cons_self d ds)
      simp only [List.map, List.cons_append, grabDigits, digitOf_decChar d hd, List.append_eq]
      rw [ih (fun x hx => h x (List.mem_cons_of_mem d hx)) (acc * 10 + d) (cnt + 1) rest hr]
      simp only [List.foldl_cons, List.length_cons]
      rw [show cnt + 1 + ds.length = cnt + (ds.length + 1) by omega]

theorem strBody_cons_plain (c : Char) (h1 : c ≠ '"') (h2 : c ≠ '\\') (w : List Char) :
    strBody (c :: w) = (strBody w).map (fun p => (c :: p.1, p.2)) := by
  rw [strBody.eq_def]
  split <;> simp_all

theorem strBody_esc (l : List Char) :
    ∀ rest, strBody (l.flatMap escChar ++ '"' :: rest) = some (l, rest) := by
  induction l with
  | nil => intro rest; rfl
  | cons c l ih =>
      intro rest
      show strBody ((escChar c ++ l.flatMap escChar) ++ '"' :: rest) = _
      rw [List.append_assoc]
      by_cases e1 : c = '\\'
      · subst e1
        show strBody ('\\' :: '\\' :: (l.flatMap escChar ++ '"' :: rest)) = _
        rw [show strBody ('\\' :: '\\' :: (l.flatMap escChar ++ '"' :: rest))
            = (strBody (l.flatMap escChar ++ '"' :: rest)).map (fun p => ('\\' :: p.1, p.2)) from rfl]
        rw [ih rest]; rfl
      by_cases e2 : c = '"'
      · subst e2
        show strBody ('\\' :: '"' :: (l.flatMap escChar ++ '"' :: rest)) = _
        rw [show strBody ('\\' :: '"' :: (l.flatMap escChar ++ '"' :: rest))
            = (strBody (l.flatMap escChar ++ '"' :: rest)).map (fun p => ('"' :: p.1, p.2)) from rfl]
        rw [ih rest]; rfl
      by_cases e3 : c = '\n'
      · subst e3
        show strBody ('\\' :: 'n' :: (l.flatMap escChar ++ '"' :: rest)) = _
        rw [show strBody ('\\' :: 'n' :: (l.flatMap escChar ++ '"' :: rest))
            = (strBody (l.flatMap escChar ++ '"' :: rest)).map (fun p => ('\n' :: p.1, p.2)) from rfl]
        rw [ih rest]; rfl
      by_cases e4 : c = '\t'
      · subst e4
        show strBody ('\\' :: 't' :: (l.flatMap escChar ++ '"' :: rest)) = _
        rw [show strBody ('\\' :: 't' :: (l.flatMap escChar ++ '"' :: rest))
            = (strBody (l.flatMap escChar ++ '"' :: rest)).map (fun p => ('\t' :: p.1, p.2)) from rfl]
        rw [ih rest]; rfl
      by_cases e5 : c = '\r'
      · subst e5
        show strBody ('\\' :: 'r' :: (l.flatMap escChar ++ '"' :: rest)) = _
        rw [show strBody ('\\' :: 'r' :: (l.flatMap escChar ++ '"' :: rest))
            = (strBody (l.flatMap escChar ++ '"' :: rest)).map (fun p => ('\r' :: p.1, p.2)) from rfl]
        rw [ih rest]; rfl
      · rw [show escChar c = [c] by simp [escChar, e1, e2, e3, e4, e5]]
        rw [show (([c] : List Char) ++ (l.flatMap escChar ++ '"' :: rest))
            = c :: (l.flatMap escChar ++ '"' :: rest) from rfl]
        rw [strBody_cons_plain c e2 e1, ih rest]; rfl

theorem padDigits_lt (w f : Nat) : ∀ d ∈ padDigits w f, d < 10 := by
  intro d hd
  rcases List.mem_append.mp hd with h | h
  · have := List.eq_of_mem_replicate h; omega
  · exact decDigits_lt f d h

theorem padDigits_length (w f : Nat) (hw : 0 < w) (hf : f < 10 ^ w) :
    (padDigits w f).length = w := by
  unfold padDigits
  rw [List.length_append, List.length_replicate]
  have := decDigits_length_le f w hw hf
  omega

theorem padDigits_foldl (w f : Nat) :
    (padDigits w f).foldl (fun a d => a * 10 + d) 0 = f := by
  unfold padDigits
  rw [List.foldl_append]
  have hz : ∀ k, (List.replicate k 0).foldl (fun a d => a * 10 + d) 0 = 0 := by
    intro k
    induction k with
    | zero => rfl
    | succ k ihk => rw [List.replicate_succ, List.foldl_cons]; simpa using ihk
  rw [hz]
  simpa using decDigits_foldl f 0

theorem padDecChars_eq (w f : Nat) : padDecChars w f = (padDigits w f).map decChar := by
  unfold padDecChars padDigits
  rw [List.map_append, List.map_replicate]
  rfl

theorem numTail_int (n d0 : Nat) (ds : List Nat) (h : decDigits n = d0 :: ds)
    (rest : List Char) (hr : numStop rest = true) :
    numTail d0 (ds.map decChar ++ rest) = some (n, 0, rest) := by
  have hds : ∀ d ∈ ds, d < 10 := fun d hd => decDigits_lt n d (h ▸ List.mem_cons_of_mem d0 hd)
  have hval : ds.foldl (fun a d => a * 10 + d) d0 = n := by
    have h0 := decDigits_foldl n 0
    rw [h, List.foldl_cons] at h0
    simpa using h0
  simp only [numTail]
  rw [grabDigits_run ds hds d0 0 rest (numStop_noDigit rest hr), hval]
  dsimp only
  cases rest with
  | nil => rfl
  | cons c r =>
      simp only [numStop, Bool.and_eq_true] at hr
      have hc : c ≠ '.' := by
        intro hcc
        rw [hcc] at hr
        simpa using hr.2
      split
      · rename_i r2 heq
        rw [List.cons.injEq] at heq
        exact absurd heq.1 hc
      · rfl

theorem numTail_frac (i f e : Nat) (he : 0 < e) (hf : f < 10 ^ e)
    (d0 : Nat) (ds : List Nat) (h : decDigits i = d0 :: ds)
    (rest : List Char) (hr : numStop rest = true) :
    numTail d0 (ds.map decChar ++ '.' :: (padDecChars e f ++ rest))
      = some (i * 10 ^ e + f, e, rest) := by
  have hds : ∀ d ∈ ds, d < 10 := fun d hd => decDigits_lt i d (h ▸ List.mem_cons_of_mem d0 hd)
  have hval : ds.foldl (fun a d => a * 10 + d) d0 = i := by
    have h0 := decDigits_foldl i 0
    rw [h, List.foldl_cons] at h0
    simpa using h0
  have hlen := padDigits_length e f he hf
  obtain ⟨p0, ps, hp⟩ : ∃ p0 ps, padDigits e f = p0 :: ps := by
    cases hpd : padDigits e f with
    | nil => rw [hpd] at hlen; simp at hlen; omega
    | cons a b => exact ⟨a, b, rfl⟩
  have hplt : ∀ d ∈ ps, d < 10 := fun d hd => padDigits_lt e f d (hp ▸ List.mem_cons_of_mem p0 hd)
  have hp0 : p0 < 10 := padDigits_lt e f p0 (hp ▸ List.mem_cons_self p0 ps)
  have hfold : ps.foldl (fun a d => a * 10 + d) p0 = f := by
    have h0 := padDigits_foldl e f
    rw [hp, List.foldl_cons] at h0
    simpa using h0
  have hcnt : ps.length + 1 = e := by
    rw [hp] at hlen
    simpa using hlen
  simp only [numTail]
  rw [grabDigits_run ds hds d0 0 _ (by rfl), hval]
  dsimp only
  rw [padDecChars_eq, hp]
  simp only [List.map, List.cons_append]
  rw [show (digitOf (decChar p0)) = some p0 from digitOf_decChar p0 hp0]
  dsimp only
  rw [grabDigits_run ps hplt p0 1 rest (numStop_noDigit rest hr), hfold]
  rw [show 1 + ps.length = e by omega]

theorem jparse_quote (fuel : Nat) (r : List Char) :
    jparse (fuel + 1) ('"' :: r)
      = (strBody r).map (fun p => (Json.str (String.mk p.1), p.2)) := rfl

theorem jparse_lbrack (fuel : Nat) (r : List Char) :
    jparse (fuel + 1) ('[' :: r)
      = (match blankDrop r with
         | ']' :: r2 => some (Json.arr [], r2)
         | r2 =>
             match jitems fuel r2 with
             | some (xs, r3) => some (Json.arr xs, r3)
             | none => none) := rfl

theorem jparse_lbrace (fuel : Nat) (r : List Char) :
    jparse (fuel + 1) ('{' :: r)
      = (match blankDrop r with
         | '}' :: r2 => some (Json.obj [], r2)
         | r2 =>
             match jpairs fuel r2 with
             | some (ps, r3) => some (Json.obj ps, r3)
             | none => none) := rfl

theorem jparse_dash (fuel : Nat) (r : List Char) :
    jparse (fuel + 1) ('-' :: r)
      = (match r with
         | c :: r2 =>
             (match digitOf c with
              | some d => (numTail d r2).map (fun p => (Json.num (-(p.1 : Int)) p.2.1, p.2.2))
              | none => none)
         | [] => none) := rfl

theorem jparse_digit (fuel : Nat) (d : Nat) (hlt : d < 10) (r : List Char) :
    jparse (fuel + 1) (decChar d :: r)
      = (numTail d r).map (fun p => (Json.num (p.1 : Int) p.2.1, p.2.2)) := by
  interval_cases d <;> rfl

theorem jparse_skip_blank (fuel : Nat) (c : Char) (h : isBlank c = true) (z : List Char) :
    jparse (fuel + 1) (c :: z) = jparse (fuel + 1) z := by
  simp only [jparse, blankDrop_cons_true c h z]

theorem jitems_skip_blank (fuel : Nat) (c : Char) (h : isBlank c = true) (w : List Char) :
    jitems fuel (c :: w) = jitems fuel w := by
  cases fuel with
  | zero => rfl
  | succ g =>
      cases g with
      | zero => rfl
      | succ g2 =>
          simp only [jitems, jparse_skip_blank g2 c h w]

theorem jpairs_skip_blank (fuel : Nat) (c : Char) (h : isBlank c = true) (w : List Char) :
    jpairs fuel (c :: w) = jpairs fuel w := by
  cases fuel with
  | zero => rfl
  | succ g => simp only [jpairs, blankDrop_cons_true c h w]

theorem numChars_decomp (m : Int) (e : Nat) :
    ∃ c t, numChars m e = c :: t ∧ isBlank c = false ∧ c ≠ ']' ∧ c ≠ '}' := by
  by_cases hm : m < 0
  · have h : numChars m e = '-' :: (if e = 0 then decChars m.natAbs
        else decChars (m.natAbs / 10 ^ e) ++ '.' :: padDecChars e (m.natAbs % 10 ^ e)) := by
      unfold numChars
      by_cases he : e = 0 <;> simp [hm, he]
    exact ⟨'-', _, h, by decide, by decide, by decide⟩
  · by_cases he : e = 0
    · obtain ⟨d0, ds, hsplit⟩ := List.exists_cons_of_ne_nil (decDigits_ne_nil m.natAbs)
      have h : numChars m e = decChar d0 :: ds.map decChar := by
        unfold numChars
        simp [hm, he, decChars, hsplit]
      obtain ⟨hb, h1, h2⟩ := decChar_facts d0
      exact ⟨_, _, h, hb, h1, h2⟩
    · obtain ⟨d0, ds, hsplit⟩ := List.exists_cons_of_ne_nil (decDigits_ne_nil (m.natAbs / 10 ^ e))
      have h : numChars m e
          = decChar d0 :: (ds.map decChar ++ '.' :: padDecChars e (m.natAbs % 10 ^ e)) := by
        unfold numChars
        simp [hm, he, decChars, hsplit]
      obtain ⟨hb, h1, h2⟩ := decChar_facts d0
      exact ⟨_, _, h, hb, h1, h2⟩

theorem jdump_head (v : Json) :
    ∃ c t, jdump v = c :: t ∧ isBlank c = false ∧ c ≠ ']' ∧ c ≠ '}' := by
  cases v with
  | null => exact ⟨'n', ['u', 'l', 'l'], rfl, by decide, by decide, by decide⟩
  | bool b =>
      cases b with
      | false => exact ⟨'f', ['a', 'l', 's', 'e'], rfl, by decide, by decide, by decide⟩
      | true => exact ⟨'t', ['r', 'u', 'e'], rfl, by decide, by decide, by decide⟩
  | num m e =>
      obtain ⟨c, t, h, hb, h1, h2⟩ := numChars_decomp m e
      exact ⟨c, t, h, hb, h1, h2⟩
  | str s => exact ⟨'"', escStr s ++ ['"'], rfl, by decide, by decide, by decide⟩
  | arr xs => exact ⟨'[', jdumpItems xs ++ [']'], rfl, by decide, by decide, by decide⟩
  | obj ps => exact ⟨'{', jdumpPairs ps ++ ['}'], rfl, by decide, by decide, by decide⟩

theorem jdumpItems_cons_decomp (x : Json) (xs : List Json) :
    ∃ t, jdumpItems (x :: xs) = jdump x ++ t := by
  cases xs with
  | nil => exact ⟨[], by rw [List.append_nil]; exact rfl⟩
  | cons y ys => exact ⟨',' :: ' ' :: jdumpItems (y :: ys), rfl⟩

theorem jdumpPairs_cons_quote (p : String × Json) (ps : List (String × Json)) :
    ∃ t, jdumpPairs (p :: ps) = '"' :: t := by
  obtain ⟨k, v⟩ := p
  cases ps with
  | nil => exact ⟨escStr k ++ '"' :: ':' :: ' ' :: jdump v, rfl⟩
  | cons q qs =>
      exact ⟨(escStr k ++ '"' :: ':' :: ' ' :: jdump v) ++ ',' :: ' ' :: jdumpPairs (q :: qs), rfl⟩

theorem arr_branch (fuel : Nat) (x : Json) (xs : List Json) (rest : List Char) :
    jparse (fuel + 1) ('[' :: (jdumpItems (x :: xs) ++ ']' :: rest))
      = (match jitems fuel (jdumpItems (x :: xs) ++ ']' :: rest) with
         | some (vs, r3) => some (Json.arr vs, r3)
         | none => none) := by
  rw [jparse_lbrack]
  obtain ⟨t, ht⟩ := jdumpItems_cons_decomp x xs
  obtain ⟨c, t2, hv, hb, hrb, _⟩ := jdump_head x
  have hshape : jdumpItems (x :: xs) ++ ']' :: rest = c :: (t2 ++ t ++ ']' :: rest) := by
    rw [ht, hv]; simp [List.append_assoc]
  rw [hshape, blankDrop_cons_false c hb]
  split
  · rename_i r2 heq
    rw [List.cons.injEq] at heq
    exact absurd heq.1 hrb
  · rw [← hshape]

theorem obj_branch (fuel : Nat) (p : String × Json) (ps : List (String × Json)) (rest : List Char) :
    jparse (fuel + 1) ('{' :: (jdumpPairs (p :: ps) ++ '}' :: rest))
      = (match jpairs fuel (jdumpPairs (p :: ps) ++ '}' :: rest) with
         | some (qs, r3) => some (Json.obj qs, r3)
         | none => none) := by
  rw [jparse_lbrace]
  obtain ⟨t, ht⟩ := jdumpPairs_cons_quote p ps
  have hshape : jdumpPairs (p :: ps) ++ '}' :: rest = '"' :: (t ++ '}' :: rest) := by
    rw [ht]; rfl
  rw [hshape, blankDrop_cons_false '"' (by decide)]
  split
  · rename_i r2 heq
    rw [List.cons.injEq] at heq
    exact absurd heq.1 (by decide)
  · rw [← hshape]

theorem jparse_num (m : Int) (e : Nat) (f : Nat) (rest : List Char) (hr : numStop rest = true) :
    jparse (f + 1) (jdump (Json.num m e) ++ rest) = some (Json.num m e, rest) := by
  have hjd : jdump (Json.num m e) = numChars m e := rfl
  rw [hjd]
  by_cases hm : m < 0
  · by_cases he : e = 0
    · subst he
      obtain ⟨d0, ds, hsplit⟩ := List.exists_cons_of_ne_nil (decDigits_ne_nil m.natAbs)
      have hd0 : d0 < 10 := decDigits_lt _ d0 (hsplit ▸ List.mem_cons_self _ _)
      have harg : numChars m 0 ++ rest = '-' :: (decChar d0 :: (ds.map decChar ++ rest)) := by
        unfold numChars
        simp [hm, decChars, hsplit]
      rw [harg, jparse_dash]
      dsimp only
      rw [digitOf_decChar d0 hd0]
      dsimp only
      rw [numTail_int m.natAbs d0 ds hsplit rest hr]
      dsimp only [Option.map]
      rw [show -((m.natAbs : Nat) : Int) = m by omega]
    · obtain ⟨d0, ds, hsplit⟩ :=
        List.exists_cons_of_ne_nil (decDigits_ne_nil (m.natAbs / 10 ^ e))
      have hd0 : d0 < 10 := decDigits_lt _ d0 (hsplit ▸ List.mem_cons_self _ _)
      have harg : numChars m e ++ rest
          = '-' :: (decChar d0 ::
              (ds.map decChar ++ '.' :: (padDecChars e (m.natAbs % 10 ^ e) ++ rest))) := by
        unfold numChars
        simp [hm, he, decChars, hsplit]
      rw [harg, jparse_dash]
      dsimp only
      rw [digitOf_decChar d0 hd0]
      dsimp only
      rw [numTail_frac (m.natAbs / 10 ^ e) (m.natAbs % 10 ^ e) e (by omega)
        (Nat.mod_lt _ (by positivity)) d0 ds hsplit rest hr]
      dsimp only [Option.map]
      rw [show m.natAbs / 10 ^ e * 10 ^ e + m.natAbs % 10 ^ e = m.natAbs by
        rw [Nat.mul_comm]; exact Nat.div_add_mod m.natAbs (10 ^ e)]
      rw [show -((m.natAbs : Nat) : Int) = m by omega]
  · by_cases he : e = 0
    · subst he
      obtain ⟨d0, ds, hsplit⟩ := List.exists_cons_of_ne_nil (decDigits_ne_nil m.natAbs)
      have hd0 : d0 < 10 := decDigits_lt _ d0 (hsplit ▸ List.mem_cons_self _ _)
      have harg : numChars m 0 ++ rest = decChar d0 :: (ds.map decChar ++ rest) := by
        unfold numChars
        simp [hm, decChars, hsplit]
      rw [harg, jparse_digit f d0 hd0]
      rw [numTail_int m.natAbs d0 ds hsplit rest hr]
      dsimp only [Option.map]
      rw [show ((m.natAbs : Nat) : Int) = m by omega]
    · obtain ⟨d0, ds, hsplit⟩ :=
        List.exists_cons_of_ne_nil (decDigits_ne_nil (m.natAbs / 10 ^ e))
      have hd0 : d0 < 10 := decDigits_lt _ d0 (hsplit ▸ List.mem_cons_self _ _)
      have harg : numChars m e ++ rest
          = decChar d0 ::
              (ds.map decChar ++ '.' :: (padDecChars e (m.natAbs % 10 ^ e) ++ rest)) := by
        unfold numChars
        simp [hm, he, decChars, hsplit]
      rw [harg, jparse_digit f d0 hd0]
      rw [numTail_frac (m.natAbs / 10 ^ e) (m.natAbs % 10 ^ e) e (by omega)
        (Nat.mod_lt _ (by positivity)) d0 ds hsplit rest hr]
      dsimp only [Option.map]
      rw [show m.natAbs / 10 ^ e * 10 ^ e + m.natAbs % 10 ^ e = m.natAbs by
        rw [Nat.mul_comm]; exact Nat.div_add_mod m.natAbs (10 ^ e)]
      rw [show ((m.natAbs : Nat) : Int) = m by omega]

theorem jitems_single (f : Nat) (x : Json) (rest : List Char)
    (hv : jparse f (jdump x ++ ']' :: rest) = some (x, ']' :: rest)) :
    jitems (f + 1) (jdump x ++ ']' :: rest) = some ([x], rest) := by
  simp only [jitems]
  rw [hv]
  rfl

theorem jitems_cons_step (f : Nat) (x : Json) (W rest : List Char) (xs : List Json)
    (hv : jparse f (jdump x ++ ',' :: ' ' :: W) = some (x, ',' :: ' ' :: W))
    (hx : jitems f W = some (xs, rest)) :
    jitems (f + 1) (jdump x ++ ',' :: ' ' :: W) = some (x :: xs, rest) := by
  simp only [jitems]
  rw [hv]
  show (match jitems f (' ' :: W) with
        | some (xs2, r3) => some (x :: xs2, r3)
        | none => none) = some (x :: xs, rest)
  rw [jitems_skip_blank f ' ' (by rfl), hx]

theorem jpairs_single (g : Nat) (k2 : List Char) (v : Json) (rest w1 : List Char)
    (hs : strBody w1 = some (k2, ':' :: ' ' :: (jdump v ++ '}' :: rest)))
    (hv : jparse (g + 1) (jdump v ++ '}' :: rest) = some (v, '}' :: rest)) :
    jpairs (g + 2) ('"' :: w1) = some ([(String.mk k2, v)], rest) := by
  simp only [jpairs]
  rw [blankDrop_cons_false '"' (by rfl)]
  show (match strBody w1 with
        | some (k3, r1) =>
            (match blankDrop r1 with
             | ':' :: r2 =>
                 (match jparse (g + 1) r2 with
                  | some (v3, r3) =>
                      (match blankDrop r3 with
                       | ',' :: r4 =>
                           (match jpairs (g + 1) r4 with
                            | some (ps3, r5) => some ((String.mk k3, v3) :: ps3, r5)
                            | none => none)
                       | '}' :: r4 => some ([(String.mk k3, v3)], r4)
                       | _ => none)
                  | none => none)
             | _ => none)
        | none => none) = some ([(String.mk k2, v)], rest)
  rw [hs]
  show (match jparse (g + 1) (' ' :: (jdump v ++ '}' :: rest)) with
        | some (v3, r3) =>
            (match blankDrop r3 with
             | ',' :: r4 =>
                 (match jpairs (g + 1) r4 with
                  | some (ps3, r5) => some ((String.mk k2, v3) :: ps3, r5)
                  | none => none)
             | '}' :: r4 => some ([(String.mk k2, v3)], r4)
             | _ => none)
        | none => none) = some ([(String.mk k2, v)], rest)
  rw [jparse_skip_blank g ' ' (by rfl), hv]
  rfl

theorem jpairs_cons_step (g : Nat) (k2 : List Char) (v : Json) (W rest : List Char)
    (ps : List (String × Json)) (w1 : List Char)
    (hs : strBody w1 = some (k2, ':' :: ' ' :: (jdump v ++ ',' :: ' ' :: W)))
    (hv : jparse (g + 1) (jdump v ++ ',' :: ' ' :: W) = some (v, ',' :: ' ' :: W))
    (hq : jpairs (g + 1) W = some (ps, rest)) :
    jpairs (g + 2) ('"' :: w1) = some ((String.mk k2, v) :: ps, rest) := by
  simp only [jpairs]
  rw [blankDrop_cons_false '"' (by rfl)]
  show (match strBody w1 with
        | some (k3, r1) =>
            (match blankDrop r1 with
             | ':' :: r2 =>
                 (match jparse (g + 1) r2 with
                  | some (v3, r3) =>
                      (match blankDrop r3 with
                       | ',' :: r4 =>
                           (match jpairs (g + 1) r4 with
                            | some (ps3, r5) => some ((String.mk k3, v3) :: ps3, r5)
                            | none => none)
                       | '}' :: r4 => some ([(String.mk k3, v3)], r4)
                       | _ => none)
                  | none => none)
             | _ => none)
        | none => none) = some ((String.mk k2, v) :: ps, rest)
  rw [hs]
  show (match jparse (g + 1) (' ' :: (jdump v ++ ',' :: ' ' :: W)) with
        | some (v3, r3) =>
            (match blankDrop r3 with
             | ',' :: r4 =>
                 (match jpairs (g + 1) r4 with
                  | some (ps3, r5) => some ((String.mk k2, v3) :: ps3, r5)
                  | none => none)
             | '}' :: r4 => some ([(String.mk k2, v3)], r4)
             | _ => none)
        | none => none) = some ((String.mk k2, v) :: ps, rest)
  rw [jparse_skip_blank g ' ' (by rfl), hv]
  show (match jpairs (g + 1) (' ' :: W) with
        | some (ps3, r5) => some ((String.mk k2, v) :: ps3, r5)
        | none => none) = some ((String.mk k2, v) :: ps, rest)
  rw [jpairs_skip_blank (g + 1) ' ' (by rfl), hq]

mutual

theorem rt_parse : ∀ (v : Json) (fuel : Nat) (rest : List Char),
    (jdump v).length < fuel → numStop rest = true →
    jparse fuel (jdump v ++ rest) = some (v, rest)
  | .null, fuel, rest, hf, _ => by
      cases fuel with
      | zero => exact absurd hf (Nat.not_lt_zero _)
      | succ f => rfl
  | .bool true, fuel, rest, hf, _ => by
      cases fuel with
      | zero => exact absurd hf (Nat.not_lt_zero _)
      | succ f => rfl
  | .bool false, fuel, rest, hf, _ => by
      cases fuel with
      | zero => exact absurd hf (Nat.not_lt_zero _)
      | succ f => rfl
  | .num m e, fuel, rest, hf, hr => by
      cases fuel with
      | zero => exact absurd hf (Nat.not_lt_zero _)
      | succ f => exact jparse_num m e f rest hr
  | .str s, fuel, rest, hf, _ => by
      cases fuel with
      | zero => exact absurd hf (Nat.not_lt_zero _)
      | succ f =>
          have harg : jdump (Json.str s) ++ rest
              = '"' :: (s.data.flatMap escChar ++ '"' :: rest) := by
            rw [show jdump (Json.str s) = '"' :: (escStr s ++ ['"']) from rfl]
            simp [escStr]
          rw [harg, jparse_quote, strBody_esc]
          rfl
  | .arr [], fuel, rest, hf, _ => by
      cases fuel with
      | zero => exact absurd hf (Nat.not_lt_zero _)
      | succ f => rfl
  | .arr (x :: xs), fuel, rest, hf, _ => by
      cases fuel with
      | zero => exact absurd hf (Nat.not_lt_zero _)
      | succ f =>
          have hlen : (jdump (Json.arr (x :: xs))).length
              = (jdumpItems (x :: xs)).length + 2 := by
            rw [show jdump (Json.arr (x :: xs))
                = '[' :: (jdumpItems (x :: xs) ++ [']']) from rfl]
            simp
          have hfi : (jdumpItems (x :: xs)).length + 1 < f := by omega
          have harg : jdump (Json.arr (x :: xs)) ++ rest
              = '[' :: (jdumpItems (x :: xs) ++ ']' :: rest) := by
            rw [show jdump (Json.arr (x :: xs))
                = '[' :: (jdumpItems (x :: xs) ++ [']']) from rfl]
            simp
          rw [harg, arr_branch f x xs rest, rt_items x xs f rest hfi]
  | .obj [], fuel, rest, hf, _ => by
      cases fuel with
      | zero => exact absurd hf (Nat.not_lt_zero _)
      | succ f => rfl
  | .obj (p :: ps), fuel, rest, hf, _ => by
      cases fuel with
      | zero => exact absurd hf (Nat.not_lt_zero _)
      | succ f =>
          have hlen : (jdump (Json.obj (p :: ps))).length
              = (jdumpPairs (p :: ps)).length + 2 := by
            rw [show jdump (Json.obj (p :: ps))
                = '{' :: (jdumpPairs (p :: ps) ++ ['}']) from rfl]
            simp
          have hfp : (jdumpPairs (p :: ps)).length + 1 < f := by omega
          have harg : jdump (Json.obj (p :: ps)) ++ rest
              = '{' :: (jdumpPairs (p :: ps) ++ '}' :: rest) := by
            rw [show jdump (Json.obj (p :: ps))
                = '{' :: (jdumpPairs (p :: ps) ++ ['}']) from rfl]
            simp
          rw [harg, obj_branch f p ps rest, rt_pairs p ps f rest hfp]
termination_by v _ _ _ _ => sizeOf v

theorem rt_items : ∀ (x : Json) (xs : List Json) (fuel : Nat) (rest : List Char),
    (jdumpItems (x :: xs)).length + 1 < fuel →
    jitems fuel (jdumpItems (x :: xs) ++ ']' :: rest) = some (x :: xs, rest)
  | x, [], fuel, rest, hf => by
      cases fuel with
      | zero => omega
      | succ f =>
          have hfx : (jdump x).length < f := by
            rw [show jdumpItems [x] = jdump x from rfl] at hf
            omega
          have harg : jdumpItems (x :: []) ++ ']' :: rest = jdump x ++ ']' :: rest := rfl
          rw [harg]
          exact jitems_single f x rest (rt_parse x f (']' :: rest) hfx (by rfl))
  | x, y :: ys, fuel, rest, hf => by
      cases fuel with
      | zero => omega
      | succ f =>
          have hlen : (jdumpItems (x :: y :: ys)).length
              = (jdump x).length + 2 + (jdumpItems (y :: ys)).length := by
            rw [show jdumpItems (x :: y :: ys)
                = jdump x ++ ',' :: ' ' :: jdumpItems (y :: ys) from rfl]
            simp
            omega
          have hfx : (jdump x).length < f := by omega
          have hfy : (jdumpItems (y :: ys)).length + 1 < f := by omega
          have harg : jdumpItems (x :: y :: ys) ++ ']' :: rest
              = jdump x ++ ',' :: ' ' :: (jdumpItems (y :: ys) ++ ']' :: rest) := by
            rw [show jdumpItems (x :: y :: ys)
                = jdump x ++ ',' :: ' ' :: jdumpItems (y :: ys) from rfl]
            simp
          rw [harg]
          exact jitems_cons_step f x (jdumpItems (y :: ys) ++ ']' :: rest) rest (y :: ys)
            (rt_parse x f _ hfx (by rfl)) (rt_items y ys f rest hfy)
termination_by x xs _ _ _ => sizeOf x + sizeOf xs

theorem rt_pairs : ∀ (p : String × Json) (ps : List (String × Json)) (fuel : Nat)
    (rest : List Char),
    (jdumpPairs (p :: ps)).length + 1 < fuel →
    jpairs fuel (jdumpPairs (p :: ps) ++ '}' :: rest) = some (p :: ps, rest)
  | (k, v), [], fuel, rest, hf => by
      cases fuel with
      | zero => omega
      | succ f =>
          have hlen : (jdumpPairs ((k, v) :: [])).length
              = (escStr k).length + (jdump v).length + 4 := by
            rw [show jdumpPairs ((k, v) :: [])
                = '"' :: (escStr k ++ '"' :: ':' :: ' ' :: jdump v) from rfl]
            simp
            omega
          have hfv : (jdump v).length < f := by omega
          cases f with
          | zero => omega
          | succ g =>
              have harg : jdumpPairs ((k, v) :: []) ++ '}' :: rest
                  = '"' :: (k.data.flatMap escChar
                      ++ '"' :: (':' :: ' ' :: (jdump v ++ '}' :: rest))) := by
                rw [show jdumpPairs ((k, v) :: [])
                    = '"' :: (escStr k ++ '"' :: ':' :: ' ' :: jdump v) from rfl]
                simp [escStr]
              rw [harg]
              exact jpairs_single g k.data v rest _
                (strBody_esc k.data (':' :: ' ' :: (jdump v ++ '}' :: rest)))
                (rt_parse v (g + 1) ('}' :: rest) hfv (by rfl))
  | (k, v), q :: qs, fuel, rest, hf => by
      cases fuel with
      | zero => omega
      | succ f =>
          have hlen : (jdumpPairs ((k, v) :: q :: qs)).length
              = (escStr k).length + (jdump v).length + 6 + (jdumpPairs (q :: qs)).length := by
            rw [show jdumpPairs ((k, v) :: q :: qs)
                = ('"' :: (escStr k ++ '"' :: ':' :: ' ' :: jdump v))
                    ++ ',' :: ' ' :: jdumpPairs (q :: qs) from rfl]
            simp
            omega
          have hfv : (jdump v).length < f := by omega
          have hfq : (jdumpPairs (q :: qs)).length + 1 < f := by omega
          cases f with
          | zero => omega
          | succ g =>
              have harg : jdumpPairs ((k, v) :: q :: qs) ++ '}' :: rest
                  = '"' :: (k.data.flatMap escChar
                      ++ '"' :: (':' :: ' ' :: (jdump v
                          ++ ',' :: ' ' :: (jdumpPairs (q :: qs) ++ '}' :: rest)))) := by
                rw [show jdumpPairs ((k, v) :: q :: qs)
                    = ('"' :: (escStr k ++ '"' :: ':' :: ' ' :: jdump v))
                        ++ ',' :: ' ' :: jdumpPairs (q :: qs) from rfl]
                simp [escStr]
              rw [harg]
              exact jpairs_cons_step g k.data v (jdumpPairs (q :: qs) ++ '}' :: rest) rest
                (q :: qs) _
                (strBody_esc k.data (':' :: ' ' :: (jdump v
                  ++ ',' :: ' ' :: (jdumpPairs (q :: qs) ++ '}' :: rest))))
                (rt_parse v (g + 1) _ hfv (by rfl))
                (rt_pairs q qs (g + 1) rest (by omega))
termination_by p ps _ _ _ => sizeOf p + sizeOf ps

end

theorem json_loads_jdump (v : Json) : json_loads (jdump v) = some v := by
  unfold json_loads
  have h := rt_parse v ((jdump v).length + 1) [] (by omega) (by rfl)
  rw [List.append_nil] at h
  rw [h]
  rfl

theorem hasTriple_cons_ne (c : Char) (h : ¬ c = tickChar) (w : List Char) :
    hasTriple (c :: w) = hasTriple w := by
  match w with
  | [] => rfl
  | [c2] => rfl
  | c2 :: c3 :: r => simp [hasTriple, h]

theorem hasTriple_tail (c : Char) (w : List Char) (h : hasTriple (c :: w) = false) :
    hasTriple w = false := by
  match w with
  | [] => rfl
  | [c2] => rfl
  | c2 :: c3 :: r =>
      simp only [hasTriple] at h
      split at h
      · exact absurd h (by simp)
      · exact h

theorem hasTriple_of_tickfree (l : List Char) (h : ∀ c ∈ l, ¬ c = tickChar) :
    hasTriple l = false := by
  induction l with
  | nil => rfl
  | cons c w ih =>
      rw [hasTriple_cons_ne c (h c (List.mem_cons_self c w)) w]
      exact ih (fun x hx => h x (List.mem_cons_of_mem c hx))

theorem hasTriple_append_left (a : List Char) (h : ∀ c ∈ a, ¬ c = tickChar) (z : List Char) :
    hasTriple (a ++ z) = hasTriple z := by
  induction a with
  | nil => rfl
  | cons c r ih =>
      rw [List.cons_append, hasTriple_cons_ne c (h c (List.mem_cons_self c r))]
      exact ih (fun x hx => h x (List.mem_cons_of_mem c hx))

theorem hasTriple_append_right (p2 : List Char) (hp : ∀ c ∈ p2, ¬ c = tickChar) :
    ∀ s, hasTriple s = false → hasTriple (s ++ p2) = false := by
  intro s
  induction s with
  | nil => intro _; simpa using hasTriple_of_tickfree p2 hp
  | cons c1 s1 ih =>
      intro hs
      cases s1 with
      | nil =>
          cases p2 with
          | nil => rfl
          | cons d p2t =>
              cases p2t with
              | nil => rfl
              | cons d2 p2tt =>
                  have hd : ¬ d = tickChar := hp d (List.mem_cons_self d _)
                  show hasTriple (c1 :: d :: d2 :: p2tt) = false
                  simp only [hasTriple]
                  split
                  · rename_i hct
                    simp only [Bool.and_eq_true, decide_eq_true_eq] at hct
                    exact absurd hct.1.2 hd
                  · exact hasTriple_of_tickfree (d :: d2 :: p2tt) hp
      | cons c2 s2 =>
          cases s2 with
          | nil =>
              cases p2 with
              | nil => simpa using hs
              | cons d p2t =>
                  have hd : ¬ d = tickChar := hp d (List.mem_cons_self d _)
                  show hasTriple (c1 :: c2 :: d :: p2t) = false
                  simp only [hasTriple]
                  split
                  · rename_i hct
                    simp only [Bool.and_eq_true, decide_eq_true_eq] at hct
                    exact absurd hct.2 hd
                  · exact ih (by rfl)
          | cons c3 s3 =>
              simp only [List.cons_append, hasTriple] at hs ⊢
              split at hs
              · exact absurd hs (by simp)
              · rename_i hfc
                rw [if_neg hfc]
                exact ih hs

theorem ticks_isPrefixOf_hasTriple (cs : List Char) (h : fenceTicks.isPrefixOf cs = true) :
    hasTriple cs = true := by
  match cs with
  | [] => simp [fenceTicks, List.isPrefixOf] at h
  | [c1] => simp [fenceTicks, List.isPrefixOf] at h
  | [c1, c2] => simp [fenceTicks, List.isPrefixOf] at h
  | c1 :: c2 :: c3 :: r =>
      simp only [fenceTicks, List.isPrefixOf, Bool.and_eq_true, beq_iff_eq] at h
      obtain ⟨h1, h2, h3, _⟩ := h
      subst h1; subst h2; subst h3
      simp [hasTriple]

theorem fenceAt_none (cs : List Char) (h : hasTriple cs = false) : fenceAt cs = none := by
  unfold fenceAt
  have hnb : ¬(fenceTicks.isPrefixOf cs = true) := by
    intro hb
    rw [ticks_isPrefixOf_hasTriple cs hb] at h
    exact Bool.noConfusion h
  rw [if_neg hnb]

theorem fencedSearch_none (cs : List Char) (h : hasTriple cs = false) :
    fencedSearch cs = none := by
  induction cs with
  | nil => rfl
  | cons c rest ih =>
      simp only [fencedSearch]
      rw [fenceAt_none _ h]
      exact ih (hasTriple_tail c rest h)

theorem fenceClose_false (xs : List Char) :
    ∀ zs, xs = zs ++ ['}'] → hasTriple xs = false →
    fenceClose (xs ++ '\n' :: fenceTicks) = false := by
  induction xs with
  | nil => intro zs hz _; exact absurd hz (by simp)
  | cons c rest ih =>
      intro zs hz htrip
      cases rest with
      | nil =>
          have hzs : zs = [] := by
            cases zs with
            | nil => rfl
            | cons q qs => simp at hz
          subst hzs
          simp only [List.nil_append] at hz
          rw [List.cons.injEq] at hz
          rw [hz.1]
          rfl
      | cons c2 rest2 =>
          have hrest : ∃ zs2, c2 :: rest2 = zs2 ++ ['}'] := by
            cases zs with
            | nil => simp at hz
            | cons q qs =>
                rw [List.cons_append, List.cons.injEq] at hz
                exact ⟨qs, hz.2⟩
          obtain ⟨zs2, hz2⟩ := hrest
          have htail : hasTriple (c2 :: rest2) = false := hasTriple_tail c _ htrip
          rcases Bool.eq_false_or_eq_true (isBlank c) with hbt | hbf
          · have hstep : fenceClose ((c :: c2 :: rest2) ++ '\n' :: fenceTicks)
                = fenceClose ((c2 :: rest2) ++ '\n' :: fenceTicks) := by
              unfold fenceClose
              rw [List.cons_append, blankDrop_cons_true c hbt]
            rw [hstep]
            exact ih zs2 hz2 htail
          · unfold fenceClose
            rw [List.cons_append, blankDrop_cons_false c hbf]
            by_cases hct : c = tickChar
            · subst hct
              by_cases hc2 : c2 = tickChar
              · subst hc2
                cases rest2 with
                | nil =>
                    cases zs2 with
                    | nil => exact absurd hz2 (by decide)
                    | cons q qs => simp at hz2
                | cons c3 rest3 =>
                    by_cases hc3 : c3 = tickChar
                    · subst hc3
                      simp [hasTriple] at htrip
                    · have hc3s : ¬(tickChar = c3) := fun he => hc3 he.symm
                      simp [fenceTicks, List.isPrefixOf, beq_iff_eq, hc3s]
              · have hc2s : ¬(tickChar = c2) := fun he => hc2 he.symm
                simp [fenceTicks, List.isPrefixOf, beq_iff_eq, hc2s]
            · have hcts : ¬(tickChar = c) := fun he => hct he.symm
              simp [fenceTicks, List.isPrefixOf, beq_iff_eq, hcts]

theorem lazyGroup_run (xs : List Char) :
    ∀ acc zs, xs = zs ++ ['}'] → hasTriple xs = false →
    lazyGroup acc (xs ++ '\n' :: fenceTicks) = some ('{' :: (acc.reverse ++ xs)) := by
  induction xs with
  | nil => intro acc zs hz _; exact absurd hz (by simp)
  | cons c rest ih =>
      intro acc zs hz htrip
      cases rest with
      | nil =>
          have hzs : zs = [] := by
            cases zs with
            | nil => rfl
            | cons q qs => simp at hz
          subst hzs
          simp only [List.nil_append] at hz
          rw [List.cons.injEq] at hz
          rw [hz.1]
          rfl
      | cons c2 rest2 =>
          have hrest : ∃ zs2, c2 :: rest2 = zs2 ++ ['}'] := by
            cases zs with
            | nil => simp at hz
            | cons q qs =>
                rw [List.cons_append, List.cons.injEq] at hz
                exact ⟨qs, hz.2⟩
          obtain ⟨zs2, hz2⟩ := hrest
          have htail : hasTriple (c2 :: rest2) = false := hasTriple_tail c _ htrip
          rw [List.cons_append]
          show (if c = '}' then
                  (if fenceClose ((c2 :: rest2) ++ '\n' :: fenceTicks) = true
                   then some ('{' :: (acc.reverse ++ ['}']))
                   else lazyGroup (c :: acc) ((c2 :: rest2) ++ '\n' :: fenceTicks))
                else lazyGroup (c :: acc) ((c2 :: rest2) ++ '\n' :: fenceTicks))
              = some ('{' :: (acc.reverse ++ (c :: c2 :: rest2)))
          by_cases hc : c = '}'
          · rw [if_pos hc]
            have hfc : fenceClose ((c2 :: rest2) ++ '\n' :: fenceTicks) = false :=
              fenceClose_false (c2 :: rest2) zs2 hz2 htail
            rw [hfc, if_neg (by simp : ¬(false = true))]
            rw [ih (c :: acc) zs2 hz2 htail]
            simp
          · rw [if_neg hc]
            rw [ih (c :: acc) zs2 hz2 htail]
            simp

theorem fenceBody_run (inner : List Char) (hin : ∃ zs, inner = zs ++ ['}'])
    (htrip : hasTriple inner = false) :
    fenceBody ('\n' :: (('{' :: inner) ++ '\n' :: fenceTicks)) = some ('{' :: inner) := by
  obtain ⟨zs, hz⟩ := hin
  unfold fenceBody
  rw [blankDrop_cons_true '\n' (by rfl), List.cons_append,
    blankDrop_cons_false '{' (by rfl)]
  show lazyGroup [] (inner ++ '\n' :: fenceTicks) = some ('{' :: inner)
  rw [lazyGroup_run inner [] zs hz htrip]
  simp

theorem fenceAt_fenceWrap (inner : List Char) (hin : ∃ zs, inner = zs ++ ['}'])
    (htrip : hasTriple inner = false) :
    fenceAt (fenceWrap ('{' :: inner)) = some ('{' :: inner) := by
  unfold fenceAt fenceWrap
  have hpre : fenceTicks.isPrefixOf (fenceTicks
      ++ 'j' :: 's' :: 'o' :: 'n' :: '\n' :: (('{' :: inner) ++ '\n' :: fenceTicks)) = true := by
    simp [fenceTicks, List.isPrefixOf]
  rw [if_pos hpre]
  have hdrop : ∀ Y : List Char, (fenceTicks ++ Y).drop 3 = Y := fun Y => rfl
  rw [hdrop]
  rw [if_pos (show (['j', 's', 'o', 'n'].isPrefixOf
      ('j' :: 's' :: 'o' :: 'n' :: '\n' :: (('{' :: inner) ++ '\n' :: fenceTicks))) = true
    from rfl)]
  rw [show ('j' :: 's' :: 'o' :: 'n' :: '\n' :: (('{' :: inner) ++ '\n' :: fenceTicks)).drop 4
      = '\n' :: (('{' :: inner) ++ '\n' :: fenceTicks) from rfl]
  rw [fenceBody_run inner hin htrip]

theorem fencedSearch_fenceWrap (inner : List Char) (hin : ∃ zs, inner = zs ++ ['}'])
    (htrip : hasTriple inner = false) :
    fencedSearch (fenceWrap ('{' :: inner)) = some ('{' :: inner) := by
  have h := fenceAt_fenceWrap inner hin htrip
  rw [show fenceWrap ('{' :: inner) = tickChar :: (tickChar :: tickChar :: 'j' :: 's' :: 'o'
      :: 'n' :: '\n' :: (('{' :: inner) ++ '\n' :: fenceTicks)) from rfl] at h ⊢
  simp only [fencedSearch]
  rw [h]

theorem json_loads_tick (z : List Char) : json_loads (tickChar :: z) = none := rfl

theorem json_loads_H (z : List Char) : json_loads ('H' :: z) = none := rfl

theorem braceSuffix_skip (a : List Char) (ha : ∀ c ∈ a, ¬ c = '{') (z : List Char) :
    braceSuffix (a ++ z) = braceSuffix z := by
  induction a with
  | nil => rfl
  | cons c r ih =>
      simp only [List.cons_append, braceSuffix]
      rw [if_neg (ha c (List.mem_cons_self c r))]
      exact ih (fun x hx => ha x (List.mem_cons_of_mem c hx))

theorem braceSuffix_brace (w : List Char) : braceSuffix ('{' :: w) = some ('{' :: w) := by
  simp [braceSuffix]

theorem lastCloseTrim_go_skip (a : List Char) (ha : ∀ c ∈ a, ¬ c = '}') (b : List Char) :
    lastCloseTrim.go (a ++ '}' :: b) = some ('}' :: b) := by
  induction a with
  | nil => simp [lastCloseTrim.go]
  | cons c r ih =>
      simp only [List.cons_append, lastCloseTrim.go]
      rw [if_neg (ha c (List.mem_cons_self c r))]
      exact ih (fun x hx => ha x (List.mem_cons_of_mem c hx))

theorem braceGroup_embed (inner p1 p2 : List Char)
    (h1 : ∀ c ∈ p1, ¬ c = '{') (h2 : ∀ c ∈ p2, ¬ c = '}') :
    braceGroup (p1 ++ (('{' :: (inner ++ ['}'])) ++ p2)) = some ('{' :: (inner ++ ['}'])) := by
  unfold braceGroup
  rw [show (('{' :: (inner ++ ['}'])) ++ p2) = '{' :: ((inner ++ ['}']) ++ p2) from rfl]
  rw [braceSuffix_skip p1 h1, braceSuffix_brace]
  have hgo : lastCloseTrim ((inner ++ ['}']) ++ p2) = some (inner ++ ['}']) := by
    unfold lastCloseTrim
    have hrev : (((inner ++ ['}']) ++ p2)).reverse = p2.reverse ++ ('}' :: inner.reverse) := by
      simp
    rw [hrev, lastCloseTrim_go_skip p2.reverse (fun c hc => h2 c (List.mem_reverse.mp hc))]
    simp
  show (match lastCloseTrim ((inner ++ ['}']) ++ p2) with
        | some g => some ('{' :: g)
        | none => none) = some ('{' :: (inner ++ ['}']))
  rw [hgo]

theorem hasTriple_proseWrap (s : List Char) (h : hasTriple s = false) :
    hasTriple (proseWrap s) = false := by
  unfold proseWrap
  rw [List.append_assoc]
  rw [hasTriple_append_left "Here is the JSON output requested:\n".data (by decide)]
  exact hasTriple_append_right "\nLet me know if you need anything else.".data (by decide) s h

/-- **C7.** Extraction round-trip of `extract_json_from_text`
(`core/util/validation.py`): for every JSON object value, the function
recovers the value from (a) its bare serialization, (b) the serialization
inside a ```json fenced block, and (c) the serialization embedded in
surrounding prose, in all three cases returning the same parsed value
(attempts are tried in the order whole-text parse, fenced block, first
brace-delimited substring).  The hypothesis states that the serialized
payload itself contains no triple-backtick run — the well-formedness
condition of a fenced block, without which the closing fence would be
ambiguous. -/
theorem c7_extraction_roundtrip (ps : List (String × Json))
    (htick : hasTriple (jdump (Json.obj ps)) = false) :
    extract_json_from_text (jdump (Json.obj ps)) = some (Json.obj ps)
      ∧ extract_json_from_text (fenceWrap (jdump (Json.obj ps))) = some (Json.obj ps)
      ∧ extract_json_from_text (proseWrap (jdump (Json.obj ps))) = some (Json.obj ps) := by
  have hload := json_loads_jdump (Json.obj ps)
  have hshape : jdump (Json.obj ps) = '{' :: (jdumpPairs ps ++ ['}']) := rfl
  have hinner : ∃ zs, jdumpPairs ps ++ ['}'] = zs ++ ['}'] := ⟨jdumpPairs ps, rfl⟩
  have htripInner : hasTriple (jdumpPairs ps ++ ['}']) = false := by
    rw [hshape] at htick
    exact hasTriple_tail _ _ htick
  refine ⟨?_, ?_, ?_⟩
  · unfold extract_json_from_text
    rw [hload]
  · have hl2 : json_loads (fenceWrap (jdump (Json.obj ps))) = none := by
      rw [show fenceWrap (jdump (Json.obj ps)) = tickChar :: (tickChar :: tickChar :: 'j'
          :: 's' :: 'o' :: 'n' :: '\n' :: (jdump (Json.obj ps) ++ '\n' :: fenceTicks)) from rfl]
      exact json_loads_tick _
    have hfs : fencedSearch (fenceWrap (jdump (Json.obj ps))) = some (jdump (Json.obj ps)) := by
      rw [hshape]
      exact fencedSearch_fenceWrap (jdumpPairs ps ++ ['}']) hinner htripInner
    unfold extract_json_from_text
    rw [hl2, hfs]
    show (match json_loads (jdump (Json.obj ps)) with
          | some v => some v
          | none => braceFallback (fenceWrap (jdump (Json.obj ps)))) = some (Json.obj ps)
    rw [hload]
  · have hl3 : json_loads (proseWrap (jdump (Json.obj ps))) = none := by
      rw [show proseWrap (jdump (Json.obj ps)) = 'H' :: ("ere is the JSON output requested:\n".data
          ++ (jdump (Json.obj ps) ++ "\nLet me know if you need anything else.".data)) from rfl]
      exact json_loads_H _
    have hfs3 : fencedSearch (proseWrap (jdump (Json.obj ps))) = none :=
      fencedSearch_none _ (hasTriple_proseWrap _ htick)
    have hbg : braceGroup (proseWrap (jdump (Json.obj ps))) = some (jdump (Json.obj ps)) := by
      unfold proseWrap
      rw [List.append_assoc, hshape]
      rw [braceGroup_embed (jdumpPairs ps) "Here is the JSON output requested:\n".data
        "\nLet me know if you need anything else.".data (by decide) (by decide)]
    unfold extract_json_from_text
    rw [hl3, hfs3]
    show braceFallback (proseWrap (jdump (Json.obj ps))) = some (Json.obj ps)
    unfold braceFallback
    rw [hbg]
    show json_loads (jdump (Json.obj ps)) = some (Json.obj ps)
    exact hload

/-- Witness for C7: the concrete object `c7val` satisfies the
no-triple-backtick hypothesis and round-trips through all three text
shapes. -/
theorem c7_witness :
    hasTriple (jdump (Json.obj c7val)) = false
      ∧ extract_json_from_text (jdump (Json.obj c7val)) = some (Json.obj c7val)
      ∧ extract_json_from_text (fenceWrap (jdump (Json.obj c7val))) = some (Json.obj c7val)
      ∧ extract_json_from_text (proseWrap (jdump (Json.obj c7val))) = some (Json.obj c7val) := by
  have h := c7_extraction_roundtrip c7val (by decide)
  exact ⟨by decide, h.1, h.2.1, h.2.2⟩

end RTL
